/-
  Verification development for the mio mesh-file I/O library.

  Shallow embedding of the C sources (src/source/obj.c, mio.c, off.c,
  stl.c, ply.c) as executable Lean definitions, followed by theorems
  settling the specification claims.

  Modelling conventions, used uniformly below:
  * A text file is modelled as the list of its lines (`List (List Char)`),
    each line without its terminating newline; `getline` splitting at
    newlines is exactly this decomposition.  A binary file is a `List Nat`
    of byte values.
  * A `malloc`ed array of n elements is `List.replicate n none`; a C store
    `arr[i] = x` is `List.set i (some x)`.  `none` entries model
    uninitialised memory.  An output pointer that may stay NULL is an
    `Option` of such a list.
  * C `unsigned int` stores go through `uintOfInt` (reduction mod 2^32).
  * The numeric value of a `double` is never needed by any claim below, so
    coordinate data is carried as the exact source-character sequence the C
    code would hand to `strtod`/`sscanf`; only the success/failure of the
    conversion (which the C code branches on) is modelled, by `strtodTok`.
-/
import Mathlib

/-- Characters the OBJ tokenizers treat as separators (space and tab). -/
def isSpaceTab (c : Char) : Bool := c = ' ' || c = '\t'

/-- White space skipped by `strtol`/`strtod`/`sscanf` conversions. -/
def isCWs (c : Char) : Bool := c = ' ' || c = '\t' || c = '\n' || c = '\r'

/-- Decimal digit test. -/
def isDigitChar (c : Char) : Bool := '0' ≤ c && c ≤ '9'

/-- Value of a (non-empty) digit string. -/
def digitsToNat (l : List Char) : Nat :=
  l.foldl (fun n c => n * 10 + (c.toNat - 48)) 0

/-- Split a character list into the maximal runs not containing a
separator, dropping empty runs — the common behaviour of `strtok` and of
the hand-rolled token scanners in the C sources. -/
def tokenizeAux (sep : Char → Bool) : List Char → List Char → List (List Char)
  | [], acc => if acc.isEmpty then [] else [acc.reverse]
  | c :: rest, acc =>
    if sep c then
      if acc.isEmpty then tokenizeAux sep rest []
      else acc.reverse :: tokenizeAux sep rest []
    else tokenizeAux sep rest (c :: acc)

def tokenize (sep : Char → Bool) (l : List Char) : List (List Char) :=
  tokenizeAux sep l []

/-- `strtol(s, &end, 10)`: skip white space, optional sign, digits.
Returns the value and the rest of the input (the `end` pointer), or `none`
when no digits are consumed (the C code detects this as `end == start`). -/
def strtol10 (l : List Char) : Option (Int × List Char) :=
  let l1 := l.dropWhile isCWs
  match l1 with
  | '-' :: rest =>
    let ds := rest.takeWhile isDigitChar
    if ds.isEmpty then none
    else some (-(digitsToNat ds : Int), rest.dropWhile isDigitChar)
  | '+' :: rest =>
    let ds := rest.takeWhile isDigitChar
    if ds.isEmpty then none
    else some ((digitsToNat ds : Int), rest.dropWhile isDigitChar)
  | _ =>
    let ds := l1.takeWhile isDigitChar
    if ds.isEmpty then none
    else some ((digitsToNat ds : Int), l1.dropWhile isDigitChar)

/-- `(unsigned int)v`: conversion of a C `int`/`long` value to `unsigned
int`, i.e. reduction modulo 2^32. -/
def uintOfInt (v : Int) : Nat := (v.emod 4294967296).toNat

/-- Prefix accepted by `strtod`: white space, optional sign, digits with an
optional fractional part, optional exponent.  Returns the consumed numeric
characters (sign included, leading white space excluded) and the rest, or
`none` when no conversion is possible (C: `end == start`).  Hexadecimal
floats and inf/nan spellings are not modelled; no mesh file in scope uses
them. -/
def strtodTok (l : List Char) : Option (List Char × List Char) :=
  let l1 := l.dropWhile isCWs
  let sgn : List Char := match l1 with
    | '+' :: _ => ['+']
    | '-' :: _ => ['-']
    | _ => []
  let l2 := l1.drop sgn.length
  let ip := l2.takeWhile isDigitChar
  let l3 := l2.dropWhile isDigitChar
  let fp : List Char := match l3 with
    | '.' :: r => '.' :: r.takeWhile isDigitChar
    | _ => []
  let l4 := l3.drop fp.length
  if ip.isEmpty && fp.length ≤ 1 then none
  else
    let mantissa := sgn ++ ip ++ fp
    match l4 with
    | e :: r =>
      if e = 'e' || e = 'E' then
        let es : List Char := match r with
          | '+' :: _ => ['+']
          | '-' :: _ => ['-']
          | _ => []
        let r1 := r.drop es.length
        let ds := r1.takeWhile isDigitChar
        if ds.isEmpty then some (mantissa, l4)
        else some (mantissa ++ e :: es ++ ds, r1.dropWhile isDigitChar)
      else some (mantissa, l4)
    | [] => some (mantissa, l4)

/-- `sscanf` with n `%lf` conversions: the list of successfully converted
tokens, stopping at the first failure (so its length is `sscanf`s return
value, capped at n). -/
def scanfLfList : Nat → List Char → List (List Char)
  | 0, _ => []
  | n + 1, l =>
    match strtodTok l with
    | none => []
    | some (t, rest) => t :: scanfLfList n rest

/-- `sscanf(l, "%u", ...)`: white space then decimal digits.  (The sign
handling of `strtoul` is not modelled; no claim involves a signed count.)
Returns the value and the rest. -/
def sscanfUInt (l : List Char) : Option (Nat × List Char) :=
  let l1 := l.dropWhile isCWs
  let ds := l1.takeWhile isDigitChar
  if ds.isEmpty then none else some (digitsToNat ds, l1.dropWhile isDigitChar)

/-- `sscanf(l, "%d", ...)`: one `strtol`-style conversion, value only. -/
def sscanfInt (l : List Char) : Option Int :=
  match strtol10 l with
  | some (v, _) => some v
  | none => none

/-- Array write: `arr[i] = x` on a possibly-NULL C array. -/
def optSet (o : Option (List (Option α))) (i : Nat) (a : α) :
    Option (List (Option α)) :=
  o.map (fun l => l.set i (some a))

/-- Length of a possibly-NULL array (NULL counts as length 0). -/
def optLen (o : Option (List β)) : Nat := (o.map List.length).getD 0

/-- Sum of the written entries of a possibly-NULL `unsigned int` array. -/
def optSum (o : Option (List (Option Nat))) : Nat :=
  ((o.getD []).map (fun e => e.getD 0)).sum

/-- `malloc` guarded by a positivity test, as in the C allocation sites. -/
def allocOpt (cond : Bool) (len : Nat) : Option (List (Option α)) :=
  if cond then some (List.replicate len none) else none

---------------------------------------------------------------------------
-- obj.c : the hardened OBJ reader and writer
---------------------------------------------------------------------------

/-- obj.c `ObjCommandType`. -/
inductive ObjCmdType
  | vertex
  | normal
  | texcoord
  | face
  | unknown
deriving DecidableEq

/-- obj.c `identify_command`: classify a stripped line by its leading
characters. -/
def identify_command : List Char → ObjCmdType
  | 'v' :: ' ' :: _ => ObjCmdType.vertex
  | 'v' :: 'n' :: ' ' :: _ => ObjCmdType.normal
  | 'v' :: 't' :: ' ' :: _ => ObjCmdType.texcoord
  | 'f' :: ' ' :: _ => ObjCmdType.face
  | _ => ObjCmdType.unknown

/-- Trailing white space (`\n`, `\r`, space, tab) stripped by obj.c
`strip_trailing_whitespace` and off.c `read_line`. -/
def isTrailWs (c : Char) : Bool := c = '\n' || c = '\r' || c = ' ' || c = '\t'

def strip_trailing_whitespace (l : List Char) : List Char :=
  (l.reverse.dropWhile isTrailWs).reverse

/-- obj.c `count_face_vertices`: number of white-space separated tokens
after the leading "f " command. -/
def count_face_vertices (l : List Char) : Nat :=
  (tokenize isSpaceTab (l.drop 2)).length

/-- obj.c `parse_face_vertex`: parse a compound face token "v", "v/vt",
"v//vn" or "v/vt/vn".  `none` when the leading vertex index does not parse
(C returns false); otherwise the triple (v_idx, vt_idx, vn_idx), each
converted from 1-based to 0-based by subtracting 1, with -1 marking an
absent sub-field exactly as in the C code. -/
def parse_face_vertex (token : List Char) : Option (Int × Int × Int) :=
  match strtol10 token with
  | none => none
  | some (v, rest) =>
    let vIdx := v - 1
    match rest with
    | '/' :: rest1 =>
      let state1 : Int × List Char :=
        match rest1 with
        | '/' :: _ => (-1, rest1)
        | _ =>
          match strtol10 rest1 with
          | some (vt, r) => (if vt ≠ 0 then vt - 1 else -1, r)
          | none => (-1, rest1)
      match state1.2 with
      | '/' :: rest3 =>
        (match strtol10 rest3 with
         | some (vn, _) =>
           some (vIdx, state1.1, if vn ≠ 0 then vn - 1 else -1)
         | none => some (vIdx, state1.1, -1))
      | _ => some (vIdx, state1.1, -1)
    | _ => some (vIdx, -1, -1)

/-- obj.c `parse_vertex` ("v x y z").  Only the first conversion is
actually checked by the C code (its later guards compare `end` with the
original start pointer and can never fire), so a missing y or z silently
keeps the local variable value, which the model records as "0". -/
def parse_vertex (l : List Char) : Option (List Char × List Char × List Char) :=
  let dat := (l.drop 2).dropWhile isSpaceTab
  match strtodTok dat with
  | none => none
  | some (x, r1) =>
    match strtodTok r1 with
    | none => some (x, ['0'], ['0'])
    | some (y, r2) =>
      match strtodTok r2 with
      | none => some (x, y, ['0'])
      | some (z, _) => some (x, y, z)

/-- obj.c `parse_texcoord` ("vt u v"); same checking discipline as
`parse_vertex`. -/
def parse_texcoord (l : List Char) : Option (List Char × List Char) :=
  let dat := (l.drop 3).dropWhile isSpaceTab
  match strtodTok dat with
  | none => none
  | some (u, r1) =>
    match strtodTok r1 with
    | none => some (u, ['0'])
    | some (v, _) => some (u, v)

/-- obj.c `parse_normal` ("vn x y z"); same checking discipline as
`parse_vertex`. -/
def parse_normal (l : List Char) : Option (List Char × List Char × List Char) :=
  let dat := (l.drop 3).dropWhile isSpaceTab
  match strtodTok dat with
  | none => none
  | some (x, r1) =>
    match strtodTok r1 with
    | none => some (x, ['0'], ['0'])
    | some (y, r2) =>
      match strtodTok r2 with
      | none => some (x, y, ['0'])
      | some (z, _) => some (x, y, z)

/-- obj.c `ParseCounts`. -/
structure ParseCounts where
  vertexCount : Nat
  normalCount : Nat
  texCoordCount : Nat
  faceCount : Nat
  faceIndexCount : Nat
deriving DecidableEq

/-- The line-skip logic shared by both obj.c passes: strip trailing white
space, skip empty lines and comments. -/
def objRelevant (raw : List Char) : Option (List Char) :=
  let l := strip_trailing_whitespace raw
  if l.isEmpty || l.headD ' ' = '#' then none else some l

/-- One line of the obj.c first (counting) pass. -/
def objCountLine (c : ParseCounts) (raw : List Char) : ParseCounts :=
  match objRelevant raw with
  | none => c
  | some l =>
    match identify_command l with
    | ObjCmdType.vertex => { c with vertexCount := c.vertexCount + 1 }
    | ObjCmdType.normal => { c with normalCount := c.normalCount + 1 }
    | ObjCmdType.texcoord => { c with texCoordCount := c.texCoordCount + 1 }
    | ObjCmdType.face =>
      { c with faceCount := c.faceCount + 1,
               faceIndexCount := c.faceIndexCount + count_face_vertices l }
    | ObjCmdType.unknown => c

/-- obj.c first pass over the whole file. -/
def objCountPass (lines : List (List Char)) : ParseCounts :=
  lines.foldl objCountLine ⟨0, 0, 0, 0, 0⟩

/-- State of the obj.c second (fill) pass: the allocated arrays plus the
five write cursors. -/
structure ObjFillState where
  vIdx : Nat
  vnIdx : Nat
  vtIdx : Nat
  fIdx : Nat
  fiIdx : Nat
  pVertices : Option (List (Option (List Char)))
  pNormals : Option (List (Option (List Char)))
  pTexCoords : Option (List (Option (List Char)))
  pFaceSizes : Option (List (Option Nat))
  pFaceVertexIndices : Option (List (Option Nat))
  pFaceVertexTexCoordIndices : Option (List (Option Nat))
  pFaceVertexNormalIndices : Option (List (Option Nat))
deriving DecidableEq

/-- obj.c fill-pass token extraction: skip white space, copy up to 127
token characters (the `token[128]` buffer cap). -/
def objExtractToken (l : List Char) : List Char × List Char :=
  let l1 := l.dropWhile isSpaceTab
  let tok := (l1.takeWhile (fun c => !(isSpaceTab c))).take 127
  (tok, l1.drop tok.length)

/-- Body of the obj.c fill-pass face loop for a token that parsed: store
the vertex index (always), then the texcoord/normal indices when the
parsed sub-index is non-negative and the array is allocated (mirroring
`vt >= 0 && *pFaceVertexTexCoordIndices != NULL`), then advance the
face-index cursor. -/
def objFillStoreToken (st : ObjFillState) (v vt vn : Int) : ObjFillState :=
  let fvi := optSet st.pFaceVertexIndices st.fiIdx (uintOfInt v)
  let st1 := { st with pFaceVertexIndices := fvi }
  let st2 :=
    if 0 ≤ vt ∧ st1.pFaceVertexTexCoordIndices.isSome = true then
      let tca := optSet st1.pFaceVertexTexCoordIndices st1.fiIdx (uintOfInt vt)
      { st1 with pFaceVertexTexCoordIndices := tca }
    else st1
  let st3 :=
    if 0 ≤ vn ∧ st2.pFaceVertexNormalIndices.isSome = true then
      let nra := optSet st2.pFaceVertexNormalIndices st2.fiIdx (uintOfInt vn)
      { st2 with pFaceVertexNormalIndices := nra }
    else st2
  { st3 with fiIdx := st3.fiIdx + 1 }

/-- obj.c fill-pass inner loop over the face-vertex tokens of one face
line: `faceVertCount` iterations, each extracting a token and, when it
parses, storing its indices at the running cursor (an unparseable token is
skipped with a warning and the cursor does not advance). -/
def objFillFaceLoop : Nat → List Char → ObjFillState → ObjFillState
  | 0, _, st => st
  | n + 1, ptr, st =>
    let tr := objExtractToken ptr
    match parse_face_vertex tr.1 with
    | none => objFillFaceLoop n tr.2 st
    | some (v, vt, vn) => objFillFaceLoop n tr.2 (objFillStoreToken st v vt vn)

/-- One line of the obj.c second (fill) pass. -/
def objFillLine (st : ObjFillState) (raw : List Char) : ObjFillState :=
  match objRelevant raw with
  | none => st
  | some l =>
    match identify_command l with
    | ObjCmdType.vertex =>
      match parse_vertex l with
      | some (x, y, z) =>
        { st with
          pVertices := optSet (optSet (optSet st.pVertices
            (st.vIdx * 3) x) (st.vIdx * 3 + 1) y) (st.vIdx * 3 + 2) z,
          vIdx := st.vIdx + 1 }
      | none => st
    | ObjCmdType.normal =>
      match parse_normal l with
      | some (x, y, z) =>
        { st with
          pNormals := optSet (optSet (optSet st.pNormals
            (st.vnIdx * 3) x) (st.vnIdx * 3 + 1) y) (st.vnIdx * 3 + 2) z,
          vnIdx := st.vnIdx + 1 }
      | none => st
    | ObjCmdType.texcoord =>
      match parse_texcoord l with
      | some (u, v) =>
        { st with
          pTexCoords := optSet (optSet st.pTexCoords
            (st.vtIdx * 2) u) (st.vtIdx * 2 + 1) v,
          vtIdx := st.vtIdx + 1 }
      | none => st
    | ObjCmdType.face =>
      let n := count_face_vertices l
      let st0 := { st with pFaceSizes := optSet st.pFaceSizes st.fIdx n }
      let st1 := objFillFaceLoop n (l.drop 2) st0
      { st1 with fIdx := st1.fIdx + 1 }
    | ObjCmdType.unknown => st

/-- obj.c second pass over the whole file. -/
def objFillPass : List (List Char) → ObjFillState → ObjFillState
  | [], st => st
  | raw :: rest, st => objFillPass rest (objFillLine st raw)

/-- Result of obj.c `mioReadOBJ` (output parameters of the C function). -/
structure ObjResult where
  pVertices : Option (List (Option (List Char)))
  pNormals : Option (List (Option (List Char)))
  pTexCoords : Option (List (Option (List Char)))
  pFaceSizes : Option (List (Option Nat))
  pFaceVertexIndices : Option (List (Option Nat))
  pFaceVertexTexCoordIndices : Option (List (Option Nat))
  pFaceVertexNormalIndices : Option (List (Option Nat))
  numVertices : Nat
  numNormals : Nat
  numTexcoords : Nat
  numFaces : Nat
deriving DecidableEq

/-- The exact-size allocation block of obj.c `mioReadOBJ`, sized from the
counting-pass counts. -/
def objAllocState (c : ParseCounts) : ObjFillState :=
  { vIdx := 0, vnIdx := 0, vtIdx := 0, fIdx := 0, fiIdx := 0,
    pVertices := allocOpt (0 < c.vertexCount) (c.vertexCount * 3),
    pNormals := allocOpt (0 < c.normalCount) (c.normalCount * 3),
    pTexCoords := allocOpt (0 < c.texCoordCount) (c.texCoordCount * 2),
    pFaceSizes := allocOpt (0 < c.faceCount) c.faceCount,
    pFaceVertexIndices := allocOpt (0 < c.faceIndexCount) c.faceIndexCount,
    pFaceVertexTexCoordIndices :=
      allocOpt (0 < c.faceIndexCount && 0 < c.texCoordCount) c.faceIndexCount,
    pFaceVertexNormalIndices :=
      allocOpt (0 < c.faceIndexCount && 0 < c.normalCount) c.faceIndexCount }

/-- obj.c `mioReadOBJ` on an opened file: counting pass, exact-size
allocation, fill pass, output counts.  (All mid-parse problems in this
variant are diagnostics only; the function has no fatal error path after
the file is open.) -/
def mioReadOBJ (lines : List (List Char)) : ObjResult :=
  let c := objCountPass lines
  let fin := objFillPass lines (objAllocState c)
  { pVertices := fin.pVertices,
    pNormals := fin.pNormals,
    pTexCoords := fin.pTexCoords,
    pFaceSizes := fin.pFaceSizes,
    pFaceVertexIndices := fin.pFaceVertexIndices,
    pFaceVertexTexCoordIndices := fin.pFaceVertexTexCoordIndices,
    pFaceVertexNormalIndices := fin.pFaceVertexNormalIndices,
    numVertices := c.vertexCount,
    numNormals := c.normalCount,
    numTexcoords := c.texCoordCount,
    numFaces := c.faceCount }

---------------------------------------------------------------------------
-- OBJ writers: obj.c mioWriteOBJ (hardened) and mio.c mioWriteOBJ (legacy)
---------------------------------------------------------------------------

/-- Decimal rendering of an `unsigned int` (printf "%u"). -/
def natDec (n : Nat) : List Char := (Nat.repr n).toList

/-- `n + 1` on a C `unsigned int` (the 1-based re-bias on output). -/
def uadd1 (n : Nat) : Nat := (n + 1) % 4294967296

/-- Read of a coordinate array slot by the writers.  Out-of-bounds access
is undefined behaviour in C; the model returns the empty token. -/
def arrGet (l : List (List Char)) (i : Nat) : List Char := l.getD i []

/-- Read of an index array slot by the writers (out of bounds: 0). -/
def idxGet (l : List Nat) (i : Nat) : Nat := l.getD i 0

/-- Caller-supplied Mesh Buffers handed to the OBJ writers.  The position,
normal and texture-coordinate arrays are flat per-component arrays, each
component carried as its formatted character string (printf float
formatting is uninterpreted; no claim depends on the numeric text). -/
structure ObjMeshIn where
  pVertices : List (List Char)
  pNormals : List (List Char)
  pTexCoords : List (List Char)
  pFaceSizes : List Nat
  pFaceVertexIndices : List Nat
  pFaceVertexTexCoordIndices : List Nat
  pFaceVertexNormalIndices : List Nat
  numVertices : Nat
  numNormals : Nat
  numTexcoords : Nat
  numFaces : Nat
deriving DecidableEq

/-- Face-vertex token emitted for flat slot k by both OBJ writers (the
same four-way shape choice appears verbatim in obj.c and mio.c):
"v/vt/vn", "v//vn", "v/vt" or "v", indices re-biased to 1-based. -/
def objWriteFaceToken (m : ObjMeshIn) (k : Nat) : List Char :=
  let vtx := natDec (uadd1 (idxGet m.pFaceVertexIndices k))
  if 0 < m.numNormals ∧ 0 < m.numTexcoords then
    vtx ++ '/' :: natDec (uadd1 (idxGet m.pFaceVertexTexCoordIndices k)) ++
      '/' :: natDec (uadd1 (idxGet m.pFaceVertexNormalIndices k))
  else if 0 < m.numNormals then
    vtx ++ '/' :: '/' :: natDec (uadd1 (idxGet m.pFaceVertexNormalIndices k))
  else if 0 < m.numTexcoords then
    vtx ++ '/' :: natDec (uadd1 (idxGet m.pFaceVertexTexCoordIndices k))
  else vtx

/-- obj.c mioWriteOBJ face lines: "f" then one " token" per face vertex. -/
def objWriteFacesGo (m : ObjMeshIn) : Nat → Nat → Nat → List (List Char)
  | 0, _, _ => []
  | k + 1, f, base =>
    let fsz := idxGet m.pFaceSizes f
    (('f' :: []) ++
        ((List.range fsz).map (fun v => ' ' :: objWriteFaceToken m (base + v))).flatten) ::
      objWriteFacesGo m k (f + 1) (base + fsz)

/-- Join tokens with single spaces (mio.c emits a space after every face
token except the last). -/
def joinSpace : List (List Char) → List Char
  | [] => []
  | [t] => t
  | t :: rest => t ++ ' ' :: joinSpace rest

/-- mio.c mioWriteOBJ face lines: the leading command is written as "v "
(source line `fprintf(file, "v ");`), then the same tokens. -/
def legacyWriteFacesGo (m : ObjMeshIn) : Nat → Nat → Nat → List (List Char)
  | 0, _, _ => []
  | k + 1, f, base =>
    let fsz := idxGet m.pFaceSizes f
    (('v' :: ' ' :: []) ++
        joinSpace ((List.range fsz).map (fun v => objWriteFaceToken m (base + v)))) ::
      legacyWriteFacesGo m k (f + 1) (base + fsz)

/-- Vertex lines "v x y z" common to both writers. -/
def objWriteVertexLines (m : ObjMeshIn) : List (List Char) :=
  (List.range m.numVertices).map (fun i =>
    'v' :: ' ' :: (arrGet m.pVertices (i * 3) ++ ' ' ::
      (arrGet m.pVertices (i * 3 + 1) ++ ' ' :: arrGet m.pVertices (i * 3 + 2))))

/-- Normal lines "vn x y z" common to both writers. -/
def objWriteNormalLines (m : ObjMeshIn) : List (List Char) :=
  (List.range m.numNormals).map (fun i =>
    'v' :: 'n' :: ' ' :: (arrGet m.pNormals (i * 3) ++ ' ' ::
      (arrGet m.pNormals (i * 3 + 1) ++ ' ' :: arrGet m.pNormals (i * 3 + 2))))

/-- obj.c texture-coordinate lines "vt u v": stride 2. -/
def objWriteTexLines (m : ObjMeshIn) : List (List Char) :=
  (List.range m.numTexcoords).map (fun i =>
    'v' :: 't' :: ' ' :: (arrGet m.pTexCoords (i * 2) ++ ' ' ::
      arrGet m.pTexCoords (i * 2 + 1)))

/-- mio.c texture-coordinate lines: the source indexes the stride-2 array
with stride 3 (`pTexCoords[i * 3u + 0u]`, `[i * 3u + 1u]`), reading across
entries (out of bounds for i ≥ ~2/3·numTexcoords). -/
def legacyWriteTexLines (m : ObjMeshIn) : List (List Char) :=
  (List.range m.numTexcoords).map (fun i =>
    'v' :: 't' :: ' ' :: (arrGet m.pTexCoords (i * 3) ++ ' ' ::
      arrGet m.pTexCoords (i * 3 + 1)))

/-- obj.c `mioWriteOBJ`: the sequence of lines written to the file. -/
def mioWriteOBJ (m : ObjMeshIn) : List (List Char) :=
  objWriteVertexLines m ++
    (if 0 < m.numNormals then objWriteNormalLines m else []) ++
    (if 0 < m.numTexcoords then objWriteTexLines m else []) ++
    objWriteFacesGo m m.numFaces 0 0

/-- mio.c `mioWriteOBJ`: the sequence of lines written to the file.  (The
vertex/normal loops guard on the counts implicitly; texture and normal
blocks are emitted whenever their loops run.) -/
def legacyWriteOBJ (m : ObjMeshIn) : List (List Char) :=
  objWriteVertexLines m ++ objWriteNormalLines m ++
    legacyWriteTexLines m ++ legacyWriteFacesGo m m.numFaces 0 0

---------------------------------------------------------------------------
-- mio.c : the legacy three-pass OBJ reader
---------------------------------------------------------------------------

/-- mio.c line stripping: `lineBuf[strcspn(lineBuf, "\r\n")] = 0` cuts the
line at the first carriage return or newline (trailing blanks are kept). -/
def legacyStrip (raw : List Char) : List Char :=
  raw.takeWhile (fun c => !(c = '\r' || c = '\n'))

/-- A line as seen by the mio.c passes: `none` when the (stripped) line is
empty or a comment and is skipped. -/
def legacyRelevant (raw : List Char) : Option (List Char) :=
  let l := legacyStrip raw
  if l.isEmpty || l.headD ' ' = '#' then none else some l

/-- Abort sites of the legacy reader (each is an `abort()`/`exit` in the
C source, i.e. a fatal error that terminates the process). -/
inductive LegacyAbort
  | vertexComponents
  | normalComponents
  | texcoordComponents
  | noFaceIndices
  | faceValence
deriving DecidableEq

/-- mio.c pass-0 counters. -/
structure LegacyCounts where
  nVertices : Nat
  nNormals : Nat
  nTexCoords : Nat
  nFaces : Nat
deriving DecidableEq

/-- mio.c first pass (`passIterator == 0`): count elements only. -/
def legacyPass0Go : List (List Char) → LegacyCounts → LegacyCounts
  | [], c => c
  | raw :: rest, c =>
    match legacyRelevant raw with
    | none => legacyPass0Go rest c
    | some l =>
      match identify_command l with
      | ObjCmdType.vertex => legacyPass0Go rest { c with nVertices := c.nVertices + 1 }
      | ObjCmdType.normal => legacyPass0Go rest { c with nNormals := c.nNormals + 1 }
      | ObjCmdType.texcoord => legacyPass0Go rest { c with nTexCoords := c.nTexCoords + 1 }
      | ObjCmdType.face => legacyPass0Go rest { c with nFaces := c.nFaces + 1 }
      | ObjCmdType.unknown => legacyPass0Go rest c

/-- Write the three components of a coordinate triple at slots i, i+1,
i+2. -/
def optSet3 (o : Option (List (Option (List Char)))) (i : Nat)
    (x y z : List Char) : Option (List (Option (List Char))) :=
  optSet (optSet (optSet o i x) (i + 1) y) (i + 2) z

/-- mio.c per-face valence recorded during pass 1: number of `strtok`
tokens (separator " ") after the leading "f " command. -/
def legacyValence (l : List Char) : Nat :=
  (tokenize (fun c => c = ' ') (l.drop 2)).length

/-- State threaded through mio.c pass 1. -/
structure LegacyP1State where
  vi : Nat
  ni : Nat
  ti : Nat
  fi : Nat
  pVertices : Option (List (Option (List Char)))
  pNormals : Option (List (Option (List Char)))
  pTexCoords : Option (List (Option (List Char)))
  pFaceSizes : Option (List (Option Nat))
  nFaceIndices : Nat
deriving DecidableEq

/-- mio.c second pass (`passIterator == 1`): fill vertex, normal and
texture-coordinate data (aborting when `sscanf` converts fewer fields than
required), record each face's valence and accumulate the total face-index
count. -/
def legacyPass1Go : List (List Char) → LegacyP1State → Except LegacyAbort LegacyP1State
  | [], st => Except.ok st
  | raw :: rest, st =>
    match legacyRelevant raw with
    | none => legacyPass1Go rest st
    | some l =>
      match identify_command l with
      | ObjCmdType.vertex =>
        let ts := scanfLfList 3 (l.drop 2)
        if ts.length = 3 then
          legacyPass1Go rest { st with
            pVertices := optSet3 st.pVertices (st.vi * 3)
              (ts.getD 0 []) (ts.getD 1 []) (ts.getD 2 []),
            vi := st.vi + 1 }
        else Except.error LegacyAbort.vertexComponents
      | ObjCmdType.normal =>
        let ts := scanfLfList 3 (l.drop 2)
        if ts.length = 3 then
          legacyPass1Go rest { st with
            pNormals := optSet3 st.pNormals (st.ni * 3)
              (ts.getD 0 []) (ts.getD 1 []) (ts.getD 2 []),
            ni := st.ni + 1 }
        else Except.error LegacyAbort.normalComponents
      | ObjCmdType.texcoord =>
        let ts := scanfLfList 2 (l.drop 2)
        if ts.length = 2 then
          legacyPass1Go rest { st with
            pTexCoords := optSet (optSet st.pTexCoords (st.ti * 2) (ts.getD 0 []))
              (st.ti * 2 + 1) (ts.getD 1 []),
            ti := st.ti + 1 }
        else Except.error LegacyAbort.texcoordComponents
      | ObjCmdType.face =>
        let n := legacyValence l
        legacyPass1Go rest { st with
          pFaceSizes := optSet st.pFaceSizes st.fi n,
          fi := st.fi + 1,
          nFaceIndices := st.nFaceIndices + n }
      | ObjCmdType.unknown => legacyPass1Go rest st

/-- The `sscanf(token, "%d", &val)` of the mio.c face fill: note it parses
the whole compound token, so for "5/7/9" every sub-field receives 5.  When
no conversion happens `val` is left uninitialised in C (undefined); the
model picks 0, and no claim depends on that case. -/
def sscanfIntD (l : List Char) : Int := (sscanfInt l).getD 0

/-- mio.c face fill, inner loop over the "/"-separated sub-fields of one
compound token.  `it` is `faceVertexDataIt`; when the file has no texture
coordinates a second sub-field is re-routed to the normal channel.  Every
sub-field stores `val - 1` where `val` is re-parsed from the whole token. -/
def legacyRouteSubs (val : Int) (haveTexCoords : Bool) (ctr : Nat) :
    List (List Char) → Nat →
    Option (List (Option Nat)) × Option (List (Option Nat)) × Option (List (Option Nat)) →
    Option (List (Option Nat)) × Option (List (Option Nat)) × Option (List (Option Nat))
  | [], _, arrs => arrs
  | _ :: rest, it, (fvi, tca, nra) =>
    let it2 := if it = 1 ∧ haveTexCoords = false then 2 else it
    let arrs2 :
        Option (List (Option Nat)) × Option (List (Option Nat)) × Option (List (Option Nat)) :=
      match it2 with
      | 0 => (optSet fvi ctr (uintOfInt (val - 1)), tca, nra)
      | 1 => (fvi, optSet tca ctr (uintOfInt (val - 1)), nra)
      | 2 => (fvi, tca, optSet nra ctr (uintOfInt (val - 1)))
      | _ => (fvi, tca, nra)
    legacyRouteSubs val haveTexCoords ctr rest (it2 + 1) arrs2

/-- `strtok(lineBuf, " ")` tokens of a whole face line (the first token is
the command "f" itself). -/
def legacyFaceTokens (l : List Char) : List (List Char) :=
  tokenize (fun c => c = ' ') l

/-- The `if (buf[0] == 'f') continue;` test of the mio.c fill pass: a
token is skipped when its first character is 'f'.  (Tokens are never
empty; the default is irrelevant.) -/
def legacyTokSkip (t : List Char) : Bool := t.headD 'f' = 'f'

/-- Number of tokens the mio.c fill pass actually processes on a face
line: tokens whose first character is not 'f' are counted by `iter`. -/
def legacyFillTokens (l : List Char) : Nat :=
  ((legacyFaceTokens l).filter (fun t => !legacyTokSkip t)).length

/-- mio.c face fill, loop over the tokens of one face line: skip tokens
starting with 'f', route each other token's sub-fields, advance the global
face-index cursor once per token.  Returns (iter, cursor, arrays). -/
def legacyFaceTokenLoop (haveTexCoords : Bool) :
    List (List Char) → Nat → Nat →
    Option (List (Option Nat)) × Option (List (Option Nat)) × Option (List (Option Nat)) →
    Nat × Nat ×
      (Option (List (Option Nat)) × Option (List (Option Nat)) × Option (List (Option Nat)))
  | [], iter, ctr, arrs => (iter, ctr, arrs)
  | tok :: rest, iter, ctr, arrs =>
    if legacyTokSkip tok then legacyFaceTokenLoop haveTexCoords rest iter ctr arrs
    else
      let val := sscanfIntD tok
      let subs := tokenize (fun c => c = '/') tok
      let arrs2 := legacyRouteSubs val haveTexCoords ctr subs 0 arrs
      legacyFaceTokenLoop haveTexCoords rest (iter + 1) (ctr + 1) arrs2

/-- State threaded through mio.c pass 2 (`passIterator == 2`). -/
structure LegacyP2State where
  nTexCoordsSeen : Nat
  fi : Nat
  ctr : Nat
  pFaceVertexIndices : Option (List (Option Nat))
  pFaceVertexTexCoordIndices : Option (List (Option Nat))
  pFaceVertexNormalIndices : Option (List (Option Nat))
deriving DecidableEq

/-- mio.c third pass: fill the face index arrays.  After each face line,
`iter` must equal the valence recorded in pass 1
(`if (iter != (int)faceVertexCount) ... abort()`).  The running texture
coordinate counter decides `haveTexCoords` at each face line. -/
def legacyPass2Go (sizes : List (Option Nat)) :
    List (List Char) → LegacyP2State → Except LegacyAbort LegacyP2State
  | [], st => Except.ok st
  | raw :: rest, st =>
    match legacyRelevant raw with
    | none => legacyPass2Go sizes rest st
    | some l =>
      match identify_command l with
      | ObjCmdType.texcoord =>
        legacyPass2Go sizes rest { st with nTexCoordsSeen := st.nTexCoordsSeen + 1 }
      | ObjCmdType.face =>
        let recorded := (sizes.getD st.fi none).getD 0
        let haveTexCoords := decide (0 < st.nTexCoordsSeen)
        let r := legacyFaceTokenLoop haveTexCoords (legacyFaceTokens l) 0 st.ctr
          (st.pFaceVertexIndices, st.pFaceVertexTexCoordIndices,
            st.pFaceVertexNormalIndices)
        if r.1 = recorded then
          legacyPass2Go sizes rest { st with
            fi := st.fi + 1,
            ctr := r.2.1,
            pFaceVertexIndices := r.2.2.1,
            pFaceVertexTexCoordIndices := r.2.2.2.1,
            pFaceVertexNormalIndices := r.2.2.2.2 }
        else Except.error LegacyAbort.faceValence
      | ObjCmdType.vertex => legacyPass2Go sizes rest st
      | ObjCmdType.normal => legacyPass2Go sizes rest st
      | ObjCmdType.unknown => legacyPass2Go sizes rest st

/-- Output of a successful mio.c `mioReadOBJ` run. -/
structure LegacyObjOk where
  pVertices : Option (List (Option (List Char)))
  pNormals : Option (List (Option (List Char)))
  pTexCoords : Option (List (Option (List Char)))
  pFaceSizes : Option (List (Option Nat))
  pFaceVertexIndices : Option (List (Option Nat))
  pFaceVertexTexCoordIndices : Option (List (Option Nat))
  pFaceVertexNormalIndices : Option (List (Option Nat))
  numVertices : Nat
  numNormals : Nat
  numTexcoords : Nat
  numFaces : Nat
deriving DecidableEq

/-- mio.c `mioReadOBJ`: pass 0 counts and allocates, pass 1 fills scalar
data and face valences (then aborts when the total face-index count is 0,
and allocates the index arrays otherwise), pass 2 fills the index arrays.
An `Except.error` models a process-terminating `abort()`/`exit`. -/
def legacyReadOBJ (lines : List (List Char)) : Except LegacyAbort LegacyObjOk :=
  let c := legacyPass0Go lines ⟨0, 0, 0, 0⟩
  let p1init : LegacyP1State :=
    { vi := 0, ni := 0, ti := 0, fi := 0,
      pVertices := allocOpt (0 < c.nVertices) (c.nVertices * 3),
      pNormals := allocOpt (0 < c.nNormals) (c.nNormals * 3),
      pTexCoords := allocOpt (0 < c.nTexCoords) (c.nTexCoords * 2),
      pFaceSizes := allocOpt (0 < c.nFaces) c.nFaces,
      nFaceIndices := 0 }
  match legacyPass1Go lines p1init with
  | Except.error e => Except.error e
  | Except.ok p1 =>
    if p1.nFaceIndices = 0 then Except.error LegacyAbort.noFaceIndices
    else
      let p2init : LegacyP2State :=
        { nTexCoordsSeen := 0, fi := 0, ctr := 0,
          pFaceVertexIndices := some (List.replicate p1.nFaceIndices none),
          pFaceVertexTexCoordIndices := allocOpt (0 < c.nTexCoords) p1.nFaceIndices,
          pFaceVertexNormalIndices := allocOpt (0 < c.nNormals) p1.nFaceIndices }
      match legacyPass2Go (p1.pFaceSizes.getD []) lines p2init with
      | Except.error e => Except.error e
      | Except.ok p2 =>
        Except.ok
          { pVertices := p1.pVertices,
            pNormals := p1.pNormals,
            pTexCoords := p1.pTexCoords,
            pFaceSizes := p1.pFaceSizes,
            pFaceVertexIndices := p2.pFaceVertexIndices,
            pFaceVertexTexCoordIndices := p2.pFaceVertexTexCoordIndices,
            pFaceVertexNormalIndices := p2.pFaceVertexNormalIndices,
            numVertices := c.nVertices,
            numNormals := c.nNormals,
            numTexcoords := c.nTexCoords,
            numFaces := c.nFaces }

/-- The classified face lines of a file, as the legacy passes see them. -/
def legacyFaceLines (lines : List (List Char)) : List (List Char) :=
  lines.filterMap (fun raw =>
    match legacyRelevant raw with
    | some l => if identify_command l = ObjCmdType.face then some l else none
    | none => none)

/-- Success test on the legacy reader's outcome. -/
def legacyOk (r : Except LegacyAbort LegacyObjOk) : Bool :=
  match r with
  | Except.ok _ => true
  | Except.error _ => false

---------------------------------------------------------------------------
-- off.c : the hardened OFF reader and writer
---------------------------------------------------------------------------

/-- Character list of a string literal. -/
def chars (s : String) : List Char := s.toList

/-- off.c `read_line`: skip to the next non-empty, non-comment line,
stripping trailing white space; returns the line and the advanced file
position (the remaining lines), or `none` at end of file. -/
def read_line : List (List Char) → Option (List Char × List (List Char))
  | [] => none
  | raw :: rest =>
    let l := strip_trailing_whitespace raw
    if l.isEmpty || l.headD ' ' = '#' then read_line rest
    else some (l, rest)

/-- Fatal error sites of off.c `mioReadOFF` (each is a `goto cleanup`). -/
inductive OffErr
  | headerNotFound
  | badHeader
  | countsNotFound
  | countsParse
  | invalidCounts
  | vertexMissing
  | vertexParse
  | faceMissing
  | faceSizeParse
  | faceIndicesParse
deriving DecidableEq

/-- Output parameters of off.c `mioReadOFF`, plus the error reported (if
any). -/
structure OffResult where
  pVertices : Option (List (Option (List Char)))
  pFaceVertexIndices : Option (List (Option Nat))
  pFaceSizes : Option (List (Option Nat))
  numVertices : Nat
  numFaces : Nat
  err : Option OffErr
deriving DecidableEq

/-- The `cleanup` block of off.c `mioReadOFF`: every fatal error frees any
allocated array, nulls all three output pointers and zeroes both counts. -/
def offCleanup (e : OffErr) : OffResult :=
  { pVertices := none, pFaceVertexIndices := none, pFaceSizes := none,
    numVertices := 0, numFaces := 0, err := some e }

/-- `pat` matches the beginning of `l`. -/
def runMatches : List Char → List Char → Bool
  | [], _ => true
  | _ :: _, [] => false
  | a :: as, b :: bs => a = b && runMatches as bs

/-- `strstr(l, pat) != NULL`: `pat` occurs contiguously in `l`. -/
def strstrContains (pat : List Char) : List Char → Bool
  | [] => pat.isEmpty
  | c :: rest => runMatches pat (c :: rest) || strstrContains pat rest

/-- `strstr(line, "OFF") != NULL`: the literal characters OFF occur
somewhere in the line. -/
def containsOFF (l : List Char) : Bool := strstrContains (("OFF").toList) l

/-- `sscanf(line, "%u %u %d", ...) < 2` check of the counts line: the
first two unsigned conversions must succeed (the edge count is read but
optional and ignored by the model, as by the C code). -/
def off_sscanf_counts (l : List Char) : Option (Nat × Nat) :=
  match sscanfUInt l with
  | none => none
  | some (nV, rest) =>
    match sscanfUInt rest with
    | none => none
    | some (nF, _) => some (nV, nF)

/-- off.c vertex loop: read `nVerts` lines, each of which must contain
three `%lf` conversions, stored at slots 3i, 3i+1, 3i+2. -/
def offReadVertsGo : Nat → Nat → List (Option (List Char)) → List (List Char) →
    Except OffErr (List (Option (List Char)) × List (List Char))
  | 0, _, arr, rest => Except.ok (arr, rest)
  | k + 1, i, arr, rest =>
    match read_line rest with
    | none => Except.error OffErr.vertexMissing
    | some (l, rest1) =>
      let ts := scanfLfList 3 l
      if ts.length = 3 then
        offReadVertsGo k (i + 1)
          (((arr.set (i * 3) (some (ts.getD 0 []))).set (i * 3 + 1)
              (some (ts.getD 1 []))).set (i * 3 + 2) (some (ts.getD 2 [])))
          rest1
      else Except.error OffErr.vertexParse

/-- off.c first face pass: read each face line's leading integer (the
valence, which must parse and be at least 3), record it, and accumulate
the total index count. -/
def offScanFacesGo : Nat → Nat → List (Option Nat) → Nat → List (List Char) →
    Except OffErr (List (Option Nat) × Nat × List (List Char))
  | 0, _, arr, tot, rest => Except.ok (arr, tot, rest)
  | k + 1, i, arr, tot, rest =>
    match read_line rest with
    | none => Except.error OffErr.faceMissing
    | some (l, rest1) =>
      match sscanfInt l with
      | none => Except.error OffErr.faceSizeParse
      | some fs =>
        if fs < 3 then Except.error OffErr.faceSizeParse
        else offScanFacesGo k (i + 1) (arr.set i (some fs.toNat)) (tot + fs.toNat) rest1

/-- Loop of off.c `parse_face_indices`: skip blanks, fail at end of line
or on a failed conversion, store `(unsigned int)val`. -/
def pfiLoop : Nat → List Char → Option (List Nat)
  | 0, _ => some []
  | k + 1, ptr =>
    let p1 := ptr.dropWhile isSpaceTab
    if p1.isEmpty then none
    else
      match strtol10 p1 with
      | none => none
      | some (v, rest) => (pfiLoop k rest).map (fun t => uintOfInt v :: t)

/-- off.c `parse_face_indices`: skip the leading valence (which must
parse), then read exactly `expectedCount` indices. -/
def parse_face_indices (l : List Char) (expectedCount : Nat) : Option (List Nat) :=
  match strtol10 l with
  | none => none
  | some (_, rest) => pfiLoop expectedCount rest

/-- `memcpy`-style write of a parsed chunk at an offset (one `arr[i] = x`
per element, as in the C fill loops). -/
def writeChunk (arr : List (Option Nat)) (off : Nat) : List Nat → List (Option Nat)
  | [] => arr
  | v :: rest => writeChunk (arr.set off (some v)) (off + 1) rest

/-- off.c second face pass (after `fseek` back to the saved position):
re-read each face line and store its indices at the running offset.
Out-of-range indices only produce a warning in the C code (no state
change, not fatal), so they are not modelled. -/
def offFillFacesGo (sizes : List (Option Nat)) :
    Nat → Nat → List (Option Nat) → Nat → List (List Char) →
    Except OffErr (List (Option Nat))
  | 0, _, indices, _, _ => Except.ok indices
  | k + 1, i, indices, off, rest =>
    match read_line rest with
    | none => Except.error OffErr.faceMissing
    | some (l, rest1) =>
      let fsz := (sizes.getD i none).getD 0
      match parse_face_indices l fsz with
      | none => Except.error OffErr.faceIndicesParse
      | some idxs =>
        offFillFacesGo sizes k (i + 1) (writeChunk indices off idxs) (off + fsz) rest1

/-- off.c `mioReadOFF` after a successful header and counts stage:
allocate, read vertices, scan faces (saving the stream position first),
allocate the index array, seek back, fill the indices. -/
def offBody (nVerts nFaces : Nat) (rest : List (List Char)) : OffResult :=
  let verts0 : List (Option (List Char)) := List.replicate (nVerts * 3) none
  let sizes0 : List (Option Nat) := List.replicate nFaces none
  match offReadVertsGo nVerts 0 verts0 rest with
  | Except.error e => offCleanup e
  | Except.ok (verts, restV) =>
    match offScanFacesGo nFaces 0 sizes0 0 restV with
    | Except.error e => offCleanup e
    | Except.ok (sizes, tot, _) =>
      let indices0 : List (Option Nat) := List.replicate tot none
      match offFillFacesGo sizes nFaces 0 indices0 0 restV with
      | Except.error e => offCleanup e
      | Except.ok indices =>
        { pVertices := some verts, pFaceVertexIndices := some indices,
          pFaceSizes := some sizes, numVertices := nVerts, numFaces := nFaces,
          err := none }

/-- off.c `mioReadOFF` from the counts line on (header already checked):
the counts line must exist, its first two unsigned fields must parse, and
both counts must be non-zero. -/
def offAfterHeader (rest : List (List Char)) : OffResult :=
  match read_line rest with
  | none => offCleanup OffErr.countsNotFound
  | some (l, rest1) =>
    match off_sscanf_counts l with
    | none => offCleanup OffErr.countsParse
    | some (nVerts, nFaces) =>
      if nVerts = 0 || nFaces = 0 then offCleanup OffErr.invalidCounts
      else offBody nVerts nFaces rest1

/-- off.c `mioReadOFF`: the header is the first non-empty, non-comment
line and must contain the literal characters OFF (`strstr`). -/
def mioReadOFF (lines : List (List Char)) : OffResult :=
  match read_line lines with
  | none => offCleanup OffErr.headerNotFound
  | some (l, rest) =>
    if containsOFF l then offAfterHeader rest
    else offCleanup OffErr.badHeader

/-- Caller-supplied buffers for off.c `mioWriteOFF` (coordinates carried
as formatted component strings, as for the OBJ writers). -/
structure OffMeshIn where
  pVertices : List (List Char)
  pFaceVertexIndices : List Nat
  pFaceSizes : Option (List Nat)
  pEdgeVertexIndices : Option (List Nat)
  numVertices : Nat
  numFaces : Nat
  numEdges : Nat
deriving DecidableEq

/-- off.c `mioWriteOFF` face lines: valence then the indices.  A NULL
`pFaceSizes` means every face is a triangle. -/
def offWriteFacesGo (m : OffMeshIn) : Nat → Nat → Nat → List (List Char)
  | 0, _, _ => []
  | k + 1, i, base =>
    let fsz := match m.pFaceSizes with
      | some s => idxGet s i
      | none => 3
    (natDec fsz ++
        ((List.range fsz).map
          (fun j => ' ' :: natDec (idxGet m.pFaceVertexIndices (base + j)))).flatten) ::
      offWriteFacesGo m k (i + 1) (base + fsz)

/-- off.c `mioWriteOFF`: header, counts line, one line per vertex, one
line per face, then the edge pairs when `numEdges > 0` and the edge array
is non-NULL. -/
def mioWriteOFF (m : OffMeshIn) : List (List Char) :=
  ("OFF").toList ::
    (natDec m.numVertices ++ ' ' :: (natDec m.numFaces ++ ' ' :: natDec m.numEdges)) ::
    ((List.range m.numVertices).map (fun i =>
      arrGet m.pVertices (i * 3) ++ ' ' ::
        (arrGet m.pVertices (i * 3 + 1) ++ ' ' :: arrGet m.pVertices (i * 3 + 2))) ++
    (offWriteFacesGo m m.numFaces 0 0 ++
    (match m.pEdgeVertexIndices with
     | some e =>
       if 0 < m.numEdges then
         (List.range m.numEdges).map (fun i =>
           natDec (idxGet e (i * 2)) ++ ' ' :: natDec (idxGet e (i * 2 + 1)))
       else []
     | none => [])))

---------------------------------------------------------------------------
-- stl.c : binary STL detection and parsing
---------------------------------------------------------------------------

/-- Error/early-return sites of stl.c `read_binary_stl` (`noTriangles` is
reported as a warning; the others as errors).  The C function returns
without any cleanup in every one of these cases. -/
inductive StlErr
  | countRead
  | noTriangles
  | normalRead
  | vertexRead
  | attrRead
deriving DecidableEq

/-- The output parameters of stl.c `mioReadSTL`, plus the diagnostic the C
code would print.  Vertex and normal entries are the little-endian 32-bit
patterns of the float32 fields (the float-to-double promotion is a
bit-level bijection and no claim depends on numeric values). -/
structure StlState where
  pVertices : Option (List (Option Nat))
  pNormals : Option (List (Option Nat))
  numVertices : Nat
  err : Option StlErr
deriving DecidableEq

/-- The initialisation block of stl.c `mioReadSTL`. -/
def stlInit : StlState :=
  { pVertices := none, pNormals := none, numVertices := 0, err := none }

/-- `fread` of n bytes at a file position: short reads are failures to the
parser. -/
def stlFread (file : List Nat) (pos n : Nat) : Option (List Nat × Nat) :=
  if pos + n ≤ file.length then some ((file.drop pos).take n, pos + n) else none

/-- Little-endian 32-bit word from (up to) 4 bytes. -/
def le32 (bs : List Nat) : Nat :=
  bs.getD 0 0 + 256 * (bs.getD 1 0 + 256 * (bs.getD 2 0 + 256 * bs.getD 3 0))

/-- k-th little-endian 32-bit word of a byte chunk. -/
def stlWord (bs : List Nat) (k : Nat) : Nat := le32 ((bs.drop (4 * k)).take 4)

/-- Store a triple of 32-bit words at slots base, base+1, base+2. -/
def stlSetTriple (arr : Option (List (Option Nat))) (base w0 w1 w2 : Nat) :
    Option (List (Option Nat)) :=
  optSet (optSet (optSet arr base w0) (base + 1) w1) (base + 2) w2

/-- stl.c inner loop of `read_binary_stl`: the three 12-byte vertices of
triangle i.  A short read returns immediately with the state as it is
(`Except.error` carries that state). -/
def stlReadVertsGo (file : List Nat) (i : Nat) :
    Nat → Nat → Nat → StlState → Except StlState (Nat × StlState)
  | 0, _, pos, st => Except.ok (pos, st)
  | k + 1, v, pos, st =>
    match stlFread file pos 12 with
    | none => Except.error { st with err := some StlErr.vertexRead }
    | some (bs, pos1) =>
      let vertexIdx := i * 3 + v
      let va := stlSetTriple st.pVertices (vertexIdx * 3) (stlWord bs 0) (stlWord bs 1) (stlWord bs 2)
      stlReadVertsGo file i k (v + 1) pos1 { st with pVertices := va }

/-- stl.c triangle loop of `read_binary_stl`: per triangle a 12-byte
normal, three 12-byte vertices and a 2-byte attribute count (reported when
non-zero, never fatal).  Any short read returns at once — the arrays stay
allocated and `numVertices` keeps its value. -/
def stlTriLoop (file : List Nat) : Nat → Nat → Nat → StlState → StlState
  | 0, _, _, st => st
  | k + 1, i, pos, st =>
    match stlFread file pos 12 with
    | none => { st with err := some StlErr.normalRead }
    | some (bs, pos1) =>
      let na := stlSetTriple st.pNormals (i * 3) (stlWord bs 0) (stlWord bs 1) (stlWord bs 2)
      let st1 := { st with pNormals := na }
      match stlReadVertsGo file i 3 0 pos1 st1 with
      | Except.error stE => stE
      | Except.ok (pos2, st2) =>
        match stlFread file pos2 2 with
        | none => { st2 with err := some StlErr.attrRead }
        | some (_, pos3) => stlTriLoop file k (i + 1) pos3 st2

/-- stl.c `read_binary_stl`: seek past the 80-byte header (seeking beyond
the end of a shorter file succeeds in C), read the 4-byte little-endian
triangle count, set `*numVertices` and allocate both arrays, then read the
triangles.  Note the output count and allocations happen before the
triangle loop, so a truncated file leaves them populated. -/
def read_binary_stl (file : List Nat) (st : StlState) : StlState :=
  match stlFread file 80 4 with
  | none => { st with err := some StlErr.countRead }
  | some (bs, pos) =>
    let triangleCount := le32 bs
    if triangleCount = 0 then { st with err := some StlErr.noTriangles }
    else
      let nVertices := triangleCount * 3 % 4294967296
      let st1 := { st with
        numVertices := nVertices,
        pVertices := some (List.replicate (nVertices * 3) none),
        pNormals := some (List.replicate (triangleCount * 3) none) }
      stlTriLoop file triangleCount 0 pos st1

/-- stl.c `is_binary_stl`: binary iff the first five bytes are readable
and differ from "solid" (bytes 115 111 108 105 100). -/
def is_binary_stl (file : List Nat) : Bool :=
  if file.length < 5 then false
  else !(file.take 5 = [115, 111, 108, 105, 100])

---------------------------------------------------------------------------
-- ply.c : the face-element block of mioReadPLY
---------------------------------------------------------------------------

/-- First face loop of ply.c `mioReadPLY`: record each face's `nverts`
(the unsigned char list length the third-party codec reports) and
accumulate the total index count. -/
def plyScanFacesGo : List (List Int) → Nat → List (Option Nat) → Nat →
    List (Option Nat) × Nat
  | [], _, arr, tot => (arr, tot)
  | f :: rest, j, arr, tot =>
    plyScanFacesGo rest (j + 1) (arr.set j (some f.length)) (tot + f.length)

/-- Second face loop of ply.c `mioReadPLY`: copy each face's
`vertex_indices` (C `int`, cast to `unsigned int` on store) to the flat
array at the running base offset.  There is no validation against the
vertex count: values are stored exactly as the codec delivered them. -/
def plyFillFacesGo : List (List Int) → Nat → List (Option Nat) → List (Option Nat)
  | [], _, arr => arr
  | f :: rest, base, arr =>
    plyFillFacesGo rest (base + f.length) (writeChunk arr base (f.map uintOfInt))

/-- Face-table outputs of ply.c `mioReadPLY`. -/
structure PlyFaceOut where
  pFaceSizes : Option (List (Option Nat))
  pFaceVertexIndices : Option (List (Option Nat))
  numFaces : Nat
deriving DecidableEq

/-- The "face" element block of ply.c `mioReadPLY`, as a function of the
face list the opaque element codec returns.  (The enclosing function also
copies vertex positions; no claim depends on them.) -/
def mioReadPLYFaces (faces : List (List Int)) : PlyFaceOut :=
  let n := faces.length
  let s := plyScanFacesGo faces 0 (List.replicate n none) 0
  let fvi := plyFillFacesGo faces 0 (List.replicate s.2 none)
  { pFaceSizes := some s.1, pFaceVertexIndices := some fvi, numFaces := n }

---------------------------------------------------------------------------
-- Derived views of a file used by the theorems
---------------------------------------------------------------------------

/-- The classified face lines of an OBJ file as the obj.c passes see them
(stripped, with blank/comment lines removed). -/
def objFaceLines (lines : List (List Char)) : List (List Char) :=
  lines.filterMap (fun raw =>
    match objRelevant raw with
    | some l => if identify_command l = ObjCmdType.face then some l else none
    | none => none)

---------------------------------------------------------------------------
-- Concrete inputs used by the theorems and witnesses
---------------------------------------------------------------------------

/-- A triangle mesh: 3 vertices, one face [0, 1, 2], no optional
channels. -/
def M0 : ObjMeshIn :=
  { pVertices := (["0", "0", "0", "1", "0", "0", "0.5", "1", "0"]).map chars,
    pNormals := [], pTexCoords := [],
    pFaceSizes := [3], pFaceVertexIndices := [0, 1, 2],
    pFaceVertexTexCoordIndices := [], pFaceVertexNormalIndices := [],
    numVertices := 3, numNormals := 0, numTexcoords := 0, numFaces := 1 }

/-- An OBJ file whose face uses the "v//vn" token shape while the file
does have a texture-coordinate channel. -/
def c7lines : List (List Char) :=
  (["v 0 0 0", "v 0 0 0", "vn 0 0 1", "vt 0 0", "f 1//2"]).map chars

/-- An OBJ file with all three channels and a "v/vt/vn" face. -/
def c4objLines : List (List Char) :=
  (["v 0 0 0", "vt 0 0", "vn 0 0 1", "f 1/1/1"]).map chars

/-- The tetrahedron OFF file of the specification's concrete scenario. -/
def tetraLines : List (List Char) :=
  (["OFF", "4 4 6", "0 0 0", "1 0 0", "0.5 1 0", "0.5 0.5 1",
    "3 0 1 2", "3 0 1 3", "3 1 2 3", "3 2 0 3"]).map chars

/-- A point cloud: 3 vertices and no faces, as mioWriteOFF can emit. -/
def pc0 : OffMeshIn :=
  { pVertices := (["0", "0", "0", "1", "0", "0", "0", "0", "1"]).map chars,
    pFaceVertexIndices := [], pFaceSizes := none, pEdgeVertexIndices := none,
    numVertices := 3, numFaces := 0, numEdges := 0 }

/-- A truncated binary STL file: 80-byte header, a triangle count of 1,
and no triangle data. -/
def stlTruncFile : List Nat := List.replicate 80 0 ++ [1, 0, 0, 0]

/-- An OBJ file the legacy reader accepts (used to witness that
successful legacy reads exist). -/
def c6okLines : List (List Char) := ([ "v 1 2 3", "f 1 1 1" ]).map chars

/-- An OFF file with a malformed header line. -/
def c2badLines : List (List Char) := ([ "XYZ", "3 1 0" ]).map chars

---------------------------------------------------------------------------
-- Theorems
---------------------------------------------------------------------------

theorem offReadVertsGo_err (k : Nat) :
    ∀ i arr rest e, offReadVertsGo k i arr rest = Except.error e →
      e = OffErr.vertexMissing ∨ e = OffErr.vertexParse := by
  induction k with
  | zero =>
    intro i arr rest e h
    simp [offReadVertsGo] at h
  | succ n ih =>
    intro i arr rest e h
    unfold offReadVertsGo at h
    dsimp only at h
    split at h
    · simp at h
      exact Or.inl h.symm
    · split at h
      · exact ih _ _ _ _ h
      · simp at h
        exact Or.inr h.symm

theorem offScanFacesGo_err (k : Nat) :
    ∀ i arr tot rest e, offScanFacesGo k i arr tot rest = Except.error e →
      e = OffErr.faceMissing ∨ e = OffErr.faceSizeParse := by
  induction k with
  | zero =>
    intro i arr tot rest e h
    simp [offScanFacesGo] at h
  | succ n ih =>
    intro i arr tot rest e h
    unfold offScanFacesGo at h
    split at h
    · simp at h
      exact Or.inl h.symm
    · split at h
      · simp at h
        exact Or.inr h.symm
      · split at h
        · simp at h
          exact Or.inr h.symm
        · exact ih _ _ _ _ _ h

theorem offFillFacesGo_err (sizes : List (Option Nat)) (k : Nat) :
    ∀ i indices off rest e,
      offFillFacesGo sizes k i indices off rest = Except.error e →
      e = OffErr.faceMissing ∨ e = OffErr.faceIndicesParse := by
  induction k with
  | zero =>
    intro i indices off rest e h
    simp [offFillFacesGo] at h
  | succ n ih =>
    intro i indices off rest e h
    unfold offFillFacesGo at h
    dsimp only at h
    split at h
    · simp at h
      exact Or.inl h.symm
    · split at h
      · simp at h
        exact Or.inr h.symm
      · exact ih _ _ _ _ _ h

theorem offBody_err_shape (nV nF : Nat) (rest : List (List Char)) :
    (offBody nV nF rest).err = none ∨
      (∃ e, offBody nV nF rest = offCleanup e ∧ e ≠ OffErr.badHeader) := by
  unfold offBody
  dsimp only
  split
  · rename_i e he
    refine Or.inr ⟨e, rfl, ?_⟩
    rcases offReadVertsGo_err _ _ _ _ _ he with h | h <;> simp [h]
  · rename_i verts restV hv
    split
    · rename_i e he
      refine Or.inr ⟨e, rfl, ?_⟩
      rcases offScanFacesGo_err _ _ _ _ _ _ he with h | h <;> simp [h]
    · rename_i sizes tot restF hs
      split
      · rename_i e he
        refine Or.inr ⟨e, rfl, ?_⟩
        rcases offFillFacesGo_err _ _ _ _ _ _ _ he with h | h <;> simp [h]
      · exact Or.inl rfl

theorem offAfterHeader_err_shape (rest : List (List Char)) :
    (offAfterHeader rest).err = none ∨
      (∃ e, offAfterHeader rest = offCleanup e ∧ e ≠ OffErr.badHeader) := by
  unfold offAfterHeader
  split
  · exact Or.inr ⟨_, rfl, by simp⟩
  · split
    · exact Or.inr ⟨_, rfl, by simp⟩
    · split
      · exact Or.inr ⟨_, rfl, by simp⟩
      · exact offBody_err_shape _ _ _

theorem mioReadOFF_err_shape (lines : List (List Char)) :
    (mioReadOFF lines).err = none ∨
      (∃ e, mioReadOFF lines = offCleanup e) := by
  unfold mioReadOFF
  split
  · exact Or.inr ⟨_, rfl⟩
  · split
    · rcases offAfterHeader_err_shape _ with h | ⟨e, he, _⟩
      · exact Or.inl h
      · exact Or.inr ⟨e, he⟩
    · exact Or.inr ⟨_, rfl⟩
theorem getD_set_self (x d : Option Nat) (a : List (Option Nat)) :
    ∀ i, i < a.length → (a.set i x).getD i d = x := by
  induction a with
  | nil =>
    intro i h
    simp at h
  | cons y t ih =>
    intro i h
    cases i with
    | zero => simp
    | succ n =>
      simp only [List.set_cons_succ, List.getD_cons_succ]
      exact ih n (by simpa using h)

theorem getD_set_ne (x d : Option Nat) (a : List (Option Nat)) :
    ∀ i j, i ≠ j → (a.set i x).getD j d = a.getD j d := by
  induction a with
  | nil =>
    intro i j _
    simp [List.getD]
  | cons y t ih =>
    intro i j hne
    cases i with
    | zero =>
      cases j with
      | zero => exact absurd rfl hne
      | succ m => simp
    | succ n =>
      cases j with
      | zero => simp
      | succ m =>
        simp only [List.set_cons_succ, List.getD_cons_succ]
        exact ih n m (by omega)

theorem legacyFaceLines_nil : legacyFaceLines [] = [] := rfl

theorem legacyFaceLines_cons_none (raw : List Char) (rest : List (List Char))
    (hr : legacyRelevant raw = none) :
    legacyFaceLines (raw :: rest) = legacyFaceLines rest := by
  unfold legacyFaceLines
  rw [List.filterMap_cons]
  rw [hr]

theorem legacyFaceLines_cons_face (raw l : List Char) (rest : List (List Char))
    (hr : legacyRelevant raw = some l) (hc : identify_command l = ObjCmdType.face) :
    legacyFaceLines (raw :: rest) = l :: legacyFaceLines rest := by
  unfold legacyFaceLines
  rw [List.filterMap_cons]
  rw [hr]
  simp [hc]

theorem legacyFaceLines_cons_other (raw l : List Char) (rest : List (List Char))
    (hr : legacyRelevant raw = some l) (hc : identify_command l ≠ ObjCmdType.face) :
    legacyFaceLines (raw :: rest) = legacyFaceLines rest := by
  unfold legacyFaceLines
  rw [List.filterMap_cons]
  rw [hr]
  simp [hc]

theorem legacyPass0_faces (lines : List (List Char)) :
    ∀ c, (legacyPass0Go lines c).nFaces = c.nFaces + (legacyFaceLines lines).length := by
  induction lines with
  | nil =>
    intro c
    simp [legacyPass0Go, legacyFaceLines_nil]
  | cons raw rest ih =>
    intro c
    unfold legacyPass0Go
    cases hr : legacyRelevant raw with
    | none =>
      rw [legacyFaceLines_cons_none raw rest hr]
      simp [ih]
    | some l =>
      dsimp only
      cases hc : identify_command l with
      | face =>
        dsimp only
        rw [legacyFaceLines_cons_face raw l rest hr hc]
        rw [ih]
        simp
        omega
      | vertex =>
        dsimp only
        rw [legacyFaceLines_cons_other raw l rest hr (by simp [hc])]
        simp [ih]
      | normal =>
        dsimp only
        rw [legacyFaceLines_cons_other raw l rest hr (by simp [hc])]
        simp [ih]
      | texcoord =>
        dsimp only
        rw [legacyFaceLines_cons_other raw l rest hr (by simp [hc])]
        simp [ih]
      | unknown =>
        dsimp only
        rw [legacyFaceLines_cons_other raw l rest hr (by simp [hc])]
        simp [ih]

theorem legacyPass1_sizes (lines : List (List Char)) :
    ∀ st a p1, legacyPass1Go lines st = Except.ok p1 →
      st.pFaceSizes = some a →
      st.fi + (legacyFaceLines lines).length ≤ a.length →
      ∃ a2, p1.pFaceSizes = some a2 ∧ a2.length = a.length ∧
        (∀ j, j < st.fi → a2.getD j none = a.getD j none) ∧
        (∀ k l, (legacyFaceLines lines)[k]? = some l →
          a2.getD (st.fi + k) none = some (legacyValence l)) := by
  induction lines with
  | nil =>
    intro st a p1 h hs _
    simp only [legacyPass1Go] at h
    cases h
    exact ⟨a, hs, rfl, fun j _ => rfl, fun k l hk => by simp [legacyFaceLines_nil] at hk⟩
  | cons raw rest ih =>
    intro st a p1 h hs hlen
    unfold legacyPass1Go at h
    cases hr : legacyRelevant raw with
    | none =>
      rw [hr] at h
      dsimp only at h
      rw [legacyFaceLines_cons_none raw rest hr] at hlen
      obtain ⟨a2, h1, h2, h3, h4⟩ := ih st a p1 h hs hlen
      refine ⟨a2, h1, h2, h3, ?_⟩
      intro k lx hk
      rw [legacyFaceLines_cons_none raw rest hr] at hk
      exact h4 k lx hk
    | some l =>
      rw [hr] at h
      dsimp only at h
      cases hc : identify_command l with
      | vertex =>
        rw [hc] at h
        dsimp only at h
        rw [legacyFaceLines_cons_other raw l rest hr (by rw [hc]; simp)] at hlen
        split at h
        · obtain ⟨a2, h1, h2, h3, h4⟩ := ih _ a p1 h hs hlen
          refine ⟨a2, h1, h2, h3, ?_⟩
          intro k lx hk
          rw [legacyFaceLines_cons_other raw l rest hr (by rw [hc]; simp)] at hk
          exact h4 k lx hk
        · exact absurd h (by simp)
      | normal =>
        rw [hc] at h
        dsimp only at h
        rw [legacyFaceLines_cons_other raw l rest hr (by rw [hc]; simp)] at hlen
        split at h
        · obtain ⟨a2, h1, h2, h3, h4⟩ := ih _ a p1 h hs hlen
          refine ⟨a2, h1, h2, h3, ?_⟩
          intro k lx hk
          rw [legacyFaceLines_cons_other raw l rest hr (by rw [hc]; simp)] at hk
          exact h4 k lx hk
        · exact absurd h (by simp)
      | texcoord =>
        rw [hc] at h
        dsimp only at h
        rw [legacyFaceLines_cons_other raw l rest hr (by rw [hc]; simp)] at hlen
        split at h
        · obtain ⟨a2, h1, h2, h3, h4⟩ := ih _ a p1 h hs hlen
          refine ⟨a2, h1, h2, h3, ?_⟩
          intro k lx hk
          rw [legacyFaceLines_cons_other raw l rest hr (by rw [hc]; simp)] at hk
          exact h4 k lx hk
        · exact absurd h (by simp)
      | unknown =>
        rw [hc] at h
        dsimp only at h
        rw [legacyFaceLines_cons_other raw l rest hr (by rw [hc]; simp)] at hlen
        obtain ⟨a2, h1, h2, h3, h4⟩ := ih st a p1 h hs hlen
        refine ⟨a2, h1, h2, h3, ?_⟩
        intro k lx hk
        rw [legacyFaceLines_cons_other raw l rest hr (by rw [hc]; simp)] at hk
        exact h4 k lx hk
      | face =>
        rw [hc] at h
        dsimp only at h
        rw [legacyFaceLines_cons_face raw l rest hr hc] at hlen
        simp only [List.length_cons] at hlen
        have hlt : st.fi < a.length := by omega
        have hset :
            (optSet st.pFaceSizes st.fi (legacyValence l)) =
              some (a.set st.fi (some (legacyValence l))) := by
          rw [hs]
          rfl
        have hlen2 :
            st.fi + 1 + (legacyFaceLines rest).length ≤
              (a.set st.fi (some (legacyValence l))).length := by
          simp only [List.length_set]
          omega
        obtain ⟨a2, h1, h2, h3, h4⟩ :=
          ih _ (a.set st.fi (some (legacyValence l))) p1 h hset hlen2
        dsimp only at h3 h4
        refine ⟨a2, h1, by simpa using h2, ?_, ?_⟩
        · intro j hj
          rw [h3 j (by omega)]
          exact getD_set_ne _ _ _ _ _ (by omega)
        · intro k lx hk
          rw [legacyFaceLines_cons_face raw l rest hr hc] at hk
          cases k with
          | zero =>
            simp at hk
            subst hk
            have hstep := h3 st.fi (by omega)
            rw [Nat.add_zero, hstep]
            exact getD_set_self _ _ _ _ hlt
          | succ m =>
            have hk2 : (legacyFaceLines rest)[m]? = some lx := by
              simpa using hk
            have := h4 m lx hk2
            rw [show st.fi + (m + 1) = st.fi + 1 + m by omega]
            exact this

theorem legacyFaceTokenLoop_iter (hb : Bool) (toks : List (List Char)) :
    ∀ iter ctr arrs,
      (legacyFaceTokenLoop hb toks iter ctr arrs).1 =
        iter + ((toks.filter (fun t => !legacyTokSkip t)).length) := by
  induction toks with
  | nil =>
    intro iter ctr arrs
    simp [legacyFaceTokenLoop]
  | cons t rest ih =>
    intro iter ctr arrs
    unfold legacyFaceTokenLoop
    by_cases hsk : legacyTokSkip t = true
    · simp [List.filter_cons, hsk, ih]
    · have hsk2 : legacyTokSkip t = false := by
        revert hsk
        cases legacyTokSkip t <;> simp
      simp [List.filter_cons, hsk2, ih]
      omega

theorem legacyPass2_checks (lines : List (List Char)) :
    ∀ sizes st p2, legacyPass2Go sizes lines st = Except.ok p2 →
      ∀ k l, (legacyFaceLines lines)[k]? = some l →
        legacyFillTokens l = (sizes.getD (st.fi + k) none).getD 0 := by
  induction lines with
  | nil =>
    intro sizes st p2 _ k l hk
    simp [legacyFaceLines_nil] at hk
  | cons raw rest ih =>
    intro sizes st p2 h k l hk
    unfold legacyPass2Go at h
    cases hr : legacyRelevant raw with
    | none =>
      rw [hr] at h
      dsimp only at h
      rw [legacyFaceLines_cons_none raw rest hr] at hk
      exact ih sizes st p2 h k l hk
    | some lx =>
      rw [hr] at h
      dsimp only at h
      cases hc : identify_command lx with
      | vertex =>
        rw [hc] at h
        dsimp only at h
        rw [legacyFaceLines_cons_other raw lx rest hr (by rw [hc]; simp)] at hk
        exact ih sizes st p2 h k l hk
      | normal =>
        rw [hc] at h
        dsimp only at h
        rw [legacyFaceLines_cons_other raw lx rest hr (by rw [hc]; simp)] at hk
        exact ih sizes st p2 h k l hk
      | texcoord =>
        rw [hc] at h
        dsimp only at h
        rw [legacyFaceLines_cons_other raw lx rest hr (by rw [hc]; simp)] at hk
        have := ih sizes _ p2 h k l hk
        dsimp only at this
        exact this
      | unknown =>
        rw [hc] at h
        dsimp only at h
        rw [legacyFaceLines_cons_other raw lx rest hr (by rw [hc]; simp)] at hk
        exact ih sizes st p2 h k l hk
      | face =>
        rw [hc] at h
        dsimp only at h
        rw [legacyFaceLines_cons_face raw lx rest hr hc] at hk
        split at h
        · rename_i hiter
          cases k with
          | zero =>
            simp at hk
            subst hk
            rw [Nat.add_zero]
            rw [legacyFaceTokenLoop_iter] at hiter
            simpa [legacyFillTokens] using hiter
          | succ m =>
            have hk2 : (legacyFaceLines rest)[m]? = some l := by
              simpa using hk
            have := ih sizes _ p2 h m l hk2
            dsimp only at this
            rw [show st.fi + (m + 1) = st.fi + 1 + m by omega]
            exact this
        · exact absurd h (by simp)

/-- C6: whenever the legacy OBJ read succeeds, every face line's
whitespace-separated fill-token count equals the valence recorded for
that face during the counting pass — the fill pass cannot silently
under- or over-read a face. -/
theorem mio_c6 (lines : List (List Char))
    (h : legacyOk (legacyReadOBJ lines) = true) :
    ∀ l ∈ legacyFaceLines lines, legacyFillTokens l = legacyValence l := by
  intro l hl
  obtain ⟨k, hklt, hke⟩ := List.mem_iff_getElem.mp hl
  have hk : (legacyFaceLines lines)[k]? = some l := by
    rw [List.getElem?_eq_getElem hklt, hke]
  have hflen : 0 < (legacyFaceLines lines).length := by omega
  unfold legacyReadOBJ at h
  dsimp only at h
  split at h
  · simp [legacyOk] at h
  · rename_i p1 hp1
    split at h
    · simp [legacyOk] at h
    · rename_i hnfi
      split at h
      · simp [legacyOk] at h
      · rename_i p2 hp2
        have hfaces :
            (legacyPass0Go lines ⟨0, 0, 0, 0⟩).nFaces = (legacyFaceLines lines).length := by
          rw [legacyPass0_faces]
          simp
        have hcond : decide (0 < (legacyPass0Go lines ⟨0, 0, 0, 0⟩).nFaces) = true := by
          simp [hfaces, hflen]
        obtain ⟨a2, h1, h2, h3, h4⟩ :=
          legacyPass1_sizes lines _ (List.replicate (legacyFaceLines lines).length none) p1 hp1
            (by
              dsimp only
              unfold allocOpt
              rw [hcond]
              simp [hfaces])
            (by simp)
        have hval := h4 k l hk
        have hchk := legacyPass2_checks lines (p1.pFaceSizes.getD []) _ p2 hp2 k l hk
        dsimp only at hchk
        rw [h1] at hchk
        simp only [Option.getD_some] at hchk
        rw [Nat.zero_add] at hchk hval
        rw [hchk, hval]
        simp

theorem mio_c6_witness :
    legacyFillTokens (("f 1 1 1").toList) = legacyValence (("f 1 1 1").toList) :=
  mio_c6 c6okLines (by decide) (("f 1 1 1").toList) (by decide)

theorem optSet_mapLen (o : Option (List (Option α))) (i : Nat) (x : α) :
    (optSet o i x).map List.length = o.map List.length := by
  cases o <;> simp [optSet]

theorem objFaceLines_nil : objFaceLines [] = [] := rfl

theorem objFaceLines_cons_none (raw : List Char) (rest : List (List Char))
    (hr : objRelevant raw = none) :
    objFaceLines (raw :: rest) = objFaceLines rest := by
  unfold objFaceLines
  rw [List.filterMap_cons]
  rw [hr]

theorem objFaceLines_cons_face (raw l : List Char) (rest : List (List Char))
    (hr : objRelevant raw = some l) (hc : identify_command l = ObjCmdType.face) :
    objFaceLines (raw :: rest) = l :: objFaceLines rest := by
  unfold objFaceLines
  rw [List.filterMap_cons]
  rw [hr]
  simp [hc]

theorem objFaceLines_cons_other (raw l : List Char) (rest : List (List Char))
    (hr : objRelevant raw = some l) (hc : identify_command l ≠ ObjCmdType.face) :
    objFaceLines (raw :: rest) = objFaceLines rest := by
  unfold objFaceLines
  rw [List.filterMap_cons]
  rw [hr]
  simp [hc]

theorem objCountLine_proj_none (c : ParseCounts) (raw : List Char)
    (hr : objRelevant raw = none) : objCountLine c raw = c := by
  unfold objCountLine
  rw [hr]

theorem objCountLine_proj_face (c : ParseCounts) (raw l : List Char)
    (hr : objRelevant raw = some l) (hc : identify_command l = ObjCmdType.face) :
    (objCountLine c raw).faceCount = c.faceCount + 1 ∧
      (objCountLine c raw).faceIndexCount = c.faceIndexCount + count_face_vertices l := by
  unfold objCountLine
  rw [hr]
  dsimp only
  rw [hc]
  exact ⟨rfl, rfl⟩

theorem objCountLine_proj_other (c : ParseCounts) (raw l : List Char)
    (hr : objRelevant raw = some l) (hc : identify_command l ≠ ObjCmdType.face) :
    (objCountLine c raw).faceCount = c.faceCount ∧
      (objCountLine c raw).faceIndexCount = c.faceIndexCount := by
  unfold objCountLine
  rw [hr]
  dsimp only
  cases hcc : identify_command l <;> first
  | exact absurd hcc hc
  | exact ⟨rfl, rfl⟩

theorem objCountGo (lines : List (List Char)) :
    ∀ c, (lines.foldl objCountLine c).faceCount =
        c.faceCount + (objFaceLines lines).length ∧
      (lines.foldl objCountLine c).faceIndexCount =
        c.faceIndexCount + ((objFaceLines lines).map count_face_vertices).sum := by
  induction lines with
  | nil =>
    intro c
    simp [objFaceLines_nil]
  | cons raw rest ih =>
    intro c
    rw [List.foldl_cons]
    obtain ⟨ih1, ih2⟩ := ih (objCountLine c raw)
    cases hr : objRelevant raw with
    | none =>
      rw [objFaceLines_cons_none raw rest hr, objCountLine_proj_none c raw hr]
      exact ih c
    | some l =>
      by_cases hc : identify_command l = ObjCmdType.face
      · obtain ⟨s1, s2⟩ := objCountLine_proj_face c raw l hr hc
        rw [objFaceLines_cons_face raw l rest hr hc]
        rw [ih1, ih2, s1, s2]
        constructor
        · simp
          omega
        · simp
          omega
      · obtain ⟨s1, s2⟩ := objCountLine_proj_other c raw l hr hc
        rw [objFaceLines_cons_other raw l rest hr hc]
        rw [ih1, ih2, s1, s2]
        exact ⟨rfl, rfl⟩

theorem objFillStoreToken_proj (st : ObjFillState) (v vt vn : Int) :
    (objFillStoreToken st v vt vn).pFaceSizes = st.pFaceSizes ∧
      (objFillStoreToken st v vt vn).fIdx = st.fIdx ∧
      ((objFillStoreToken st v vt vn).pFaceVertexIndices).map List.length =
        (st.pFaceVertexIndices).map List.length ∧
      ((objFillStoreToken st v vt vn).pFaceVertexTexCoordIndices).map List.length =
        (st.pFaceVertexTexCoordIndices).map List.length ∧
      ((objFillStoreToken st v vt vn).pFaceVertexNormalIndices).map List.length =
        (st.pFaceVertexNormalIndices).map List.length := by
  unfold objFillStoreToken
  try dsimp only
  by_cases h1 : 0 ≤ vt ∧ st.pFaceVertexTexCoordIndices.isSome = true
  · rw [if_pos h1]
    try dsimp only
    by_cases h2 : 0 ≤ vn ∧ st.pFaceVertexNormalIndices.isSome = true
    · rw [if_pos h2]
      exact ⟨rfl, rfl, optSet_mapLen _ _ _, optSet_mapLen _ _ _, optSet_mapLen _ _ _⟩
    · rw [if_neg h2]
      exact ⟨rfl, rfl, optSet_mapLen _ _ _, optSet_mapLen _ _ _, rfl⟩
  · rw [if_neg h1]
    try dsimp only
    by_cases h2 : 0 ≤ vn ∧ st.pFaceVertexNormalIndices.isSome = true
    · rw [if_pos h2]
      exact ⟨rfl, rfl, optSet_mapLen _ _ _, rfl, optSet_mapLen _ _ _⟩
    · rw [if_neg h2]
      exact ⟨rfl, rfl, optSet_mapLen _ _ _, rfl, rfl⟩

theorem objFillFaceLoop_proj (n : Nat) :
    ∀ ptr st,
      (objFillFaceLoop n ptr st).pFaceSizes = st.pFaceSizes ∧
      (objFillFaceLoop n ptr st).fIdx = st.fIdx ∧
      ((objFillFaceLoop n ptr st).pFaceVertexIndices).map List.length =
        (st.pFaceVertexIndices).map List.length ∧
      ((objFillFaceLoop n ptr st).pFaceVertexTexCoordIndices).map List.length =
        (st.pFaceVertexTexCoordIndices).map List.length ∧
      ((objFillFaceLoop n ptr st).pFaceVertexNormalIndices).map List.length =
        (st.pFaceVertexNormalIndices).map List.length := by
  induction n with
  | zero =>
    intro ptr st
    simp [objFillFaceLoop]
  | succ m ih =>
    intro ptr st
    unfold objFillFaceLoop
    dsimp only
    split
    · exact ih _ _
    · rename_i v vt vn heq
      obtain ⟨i1, i2, i3, i4, i5⟩ := ih (objExtractToken ptr).2 (objFillStoreToken st v vt vn)
      obtain ⟨s1, s2, s3, s4, s5⟩ := objFillStoreToken_proj st v vt vn
      exact ⟨by rw [i1, s1], by rw [i2, s2], by rw [i3, s3], by rw [i4, s4], by rw [i5, s5]⟩

theorem objFillLine_none (st : ObjFillState) (raw : List Char)
    (hr : objRelevant raw = none) : objFillLine st raw = st := by
  unfold objFillLine
  rw [hr]

theorem objFillLine_nonface (st : ObjFillState) (raw l : List Char)
    (hr : objRelevant raw = some l) (hc : identify_command l ≠ ObjCmdType.face) :
    (objFillLine st raw).pFaceSizes = st.pFaceSizes ∧
      (objFillLine st raw).fIdx = st.fIdx ∧
      ((objFillLine st raw).pFaceVertexIndices).map List.length =
        (st.pFaceVertexIndices).map List.length ∧
      ((objFillLine st raw).pFaceVertexTexCoordIndices).map List.length =
        (st.pFaceVertexTexCoordIndices).map List.length ∧
      ((objFillLine st raw).pFaceVertexNormalIndices).map List.length =
        (st.pFaceVertexNormalIndices).map List.length := by
  unfold objFillLine
  rw [hr]
  dsimp only
  cases hcc : identify_command l with
  | face => exact absurd hcc hc
  | vertex =>
    dsimp only
    split
    · exact ⟨rfl, rfl, rfl, rfl, rfl⟩
    · exact ⟨rfl, rfl, rfl, rfl, rfl⟩
  | normal =>
    dsimp only
    split
    · exact ⟨rfl, rfl, rfl, rfl, rfl⟩
    · exact ⟨rfl, rfl, rfl, rfl, rfl⟩
  | texcoord =>
    dsimp only
    split
    · exact ⟨rfl, rfl, rfl, rfl, rfl⟩
    · exact ⟨rfl, rfl, rfl, rfl, rfl⟩
  | unknown => exact ⟨rfl, rfl, rfl, rfl, rfl⟩

theorem objFillLine_face (st : ObjFillState) (raw l : List Char)
    (hr : objRelevant raw = some l) (hc : identify_command l = ObjCmdType.face) :
    objFillLine st raw =
      { objFillFaceLoop (count_face_vertices l) (l.drop 2)
          { st with pFaceSizes := optSet st.pFaceSizes st.fIdx (count_face_vertices l) } with
        fIdx :=
          (objFillFaceLoop (count_face_vertices l) (l.drop 2)
            { st with
              pFaceSizes := optSet st.pFaceSizes st.fIdx (count_face_vertices l) }).fIdx + 1 } := by
  unfold objFillLine
  rw [hr]
  dsimp only
  rw [hc]

theorem objFillPass_cons (raw : List Char) (rest : List (List Char)) (st : ObjFillState) :
    objFillPass (raw :: rest) st = objFillPass rest (objFillLine st raw) := rfl

theorem objFillPass_mapLen (lines : List (List Char)) :
    ∀ st,
      ((objFillPass lines st).pFaceVertexIndices).map List.length =
        (st.pFaceVertexIndices).map List.length ∧
      ((objFillPass lines st).pFaceVertexTexCoordIndices).map List.length =
        (st.pFaceVertexTexCoordIndices).map List.length ∧
      ((objFillPass lines st).pFaceVertexNormalIndices).map List.length =
        (st.pFaceVertexNormalIndices).map List.length := by
  induction lines with
  | nil =>
    intro st
    exact ⟨rfl, rfl, rfl⟩
  | cons raw rest ih =>
    intro st
    rw [objFillPass_cons]
    cases hr : objRelevant raw with
    | none =>
      rw [objFillLine_none st raw hr]
      exact ih st
    | some l =>
      obtain ⟨i1, i2, i3⟩ := ih (objFillLine st raw)
      by_cases hc : identify_command l = ObjCmdType.face
      · rw [objFillLine_face st raw l hr hc] at i1 i2 i3 ⊢
        dsimp only at i1 i2 i3
        obtain ⟨p1, p2, p3, p4, p5⟩ :=
          objFillFaceLoop_proj (count_face_vertices l) (l.drop 2)
            { st with pFaceSizes := optSet st.pFaceSizes st.fIdx (count_face_vertices l) }
        rw [p3] at i1
        rw [p4] at i2
        rw [p5] at i3
        exact ⟨i1, i2, i3⟩
      · obtain ⟨_, _, q3, q4, q5⟩ := objFillLine_nonface st raw l hr hc
        rw [q3] at i1
        rw [q4] at i2
        rw [q5] at i3
        exact ⟨i1, i2, i3⟩

theorem objFillPass_sizes_none (lines : List (List Char)) :
    ∀ st, st.pFaceSizes = none → (objFillPass lines st).pFaceSizes = none := by
  induction lines with
  | nil =>
    intro st hs
    exact hs
  | cons raw rest ih =>
    intro st hs
    rw [objFillPass_cons]
    cases hr : objRelevant raw with
    | none =>
      rw [objFillLine_none st raw hr]
      exact ih st hs
    | some l =>
      by_cases hc : identify_command l = ObjCmdType.face
      · apply ih
        rw [objFillLine_face st raw l hr hc]
        dsimp only
        obtain ⟨p1, _, _, _, _⟩ :=
          objFillFaceLoop_proj (count_face_vertices l) (l.drop 2)
            { st with pFaceSizes := optSet st.pFaceSizes st.fIdx (count_face_vertices l) }
        rw [p1]
        dsimp only
        rw [hs]
        rfl
      · apply ih
        obtain ⟨q1, _, _, _, _⟩ := objFillLine_nonface st raw l hr hc
        rw [q1]
        exact hs

theorem objFillPass_sizes (lines : List (List Char)) :
    ∀ st a, st.pFaceSizes = some a →
      st.fIdx + (objFaceLines lines).length ≤ a.length →
      ∃ a2, (objFillPass lines st).pFaceSizes = some a2 ∧ a2.length = a.length ∧
        (∀ j, j < st.fIdx → a2.getD j none = a.getD j none) ∧
        (∀ k l, (objFaceLines lines)[k]? = some l →
          a2.getD (st.fIdx + k) none = some (count_face_vertices l)) := by
  induction lines with
  | nil =>
    intro st a hs _
    exact ⟨a, hs, rfl, fun j _ => rfl, fun k l hk => by simp [objFaceLines_nil] at hk⟩
  | cons raw rest ih =>
    intro st a hs hlen
    rw [objFillPass_cons]
    cases hr : objRelevant raw with
    | none =>
      rw [objFillLine_none st raw hr]
      rw [objFaceLines_cons_none raw rest hr] at hlen
      obtain ⟨a2, h1, h2, h3, h4⟩ := ih st a hs hlen
      refine ⟨a2, h1, h2, h3, ?_⟩
      intro k lx hk
      rw [objFaceLines_cons_none raw rest hr] at hk
      exact h4 k lx hk
    | some l =>
      by_cases hc : identify_command l = ObjCmdType.face
      · rw [objFaceLines_cons_face raw l rest hr hc] at hlen
        simp only [List.length_cons] at hlen
        have hlt : st.fIdx < a.length := by omega
        obtain ⟨p1, p2, p3, p4, p5⟩ :=
          objFillFaceLoop_proj (count_face_vertices l) (l.drop 2)
            { st with pFaceSizes := optSet st.pFaceSizes st.fIdx (count_face_vertices l) }
        have hs2 : (objFillLine st raw).pFaceSizes =
            some (a.set st.fIdx (some (count_face_vertices l))) := by
          rw [objFillLine_face st raw l hr hc]
          dsimp only
          rw [p1]
          dsimp only
          rw [hs]
          rfl
        have hfi2 : (objFillLine st raw).fIdx = st.fIdx + 1 := by
          rw [objFillLine_face st raw l hr hc]
          dsimp only
          rw [p2]
        have hlen2 : (objFillLine st raw).fIdx + (objFaceLines rest).length ≤
            (a.set st.fIdx (some (count_face_vertices l))).length := by
          rw [hfi2]
          simp only [List.length_set]
          omega
        obtain ⟨a2, h1, h2, h3, h4⟩ :=
          ih (objFillLine st raw) (a.set st.fIdx (some (count_face_vertices l))) hs2 hlen2
        rw [hfi2] at h3 h4
        refine ⟨a2, h1, by simpa using h2, ?_, ?_⟩
        · intro j hj
          rw [h3 j (by omega)]
          exact getD_set_ne _ _ _ _ _ (by omega)
        · intro k lx hk
          rw [objFaceLines_cons_face raw l rest hr hc] at hk
          cases k with
          | zero =>
            simp at hk
            subst hk
            have hstep := h3 st.fIdx (by omega)
            rw [Nat.add_zero, hstep]
            exact getD_set_self _ _ _ _ hlt
          | succ m =>
            have hk2 : (objFaceLines rest)[m]? = some lx := by
              simpa using hk
            have := h4 m lx hk2
            rw [show st.fIdx + (m + 1) = st.fIdx + 1 + m by omega]
            exact this
      · rw [objFaceLines_cons_other raw l rest hr hc] at hlen
        obtain ⟨q1, q2, _, _, _⟩ := objFillLine_nonface st raw l hr hc
        have hs2 : (objFillLine st raw).pFaceSizes = some a := by
          rw [q1]
          exact hs
        have hlen2 : (objFillLine st raw).fIdx + (objFaceLines rest).length ≤ a.length := by
          rw [q2]
          exact hlen
        obtain ⟨a2, h1, h2, h3, h4⟩ := ih (objFillLine st raw) a hs2 hlen2
        rw [q2] at h3 h4
        refine ⟨a2, h1, h2, h3, ?_⟩
        intro k lx hk
        rw [objFaceLines_cons_other raw l rest hr hc] at hk
        exact h4 k lx hk

theorem allocOpt_some_length (cond : Bool) (len : Nat) (a : List (Option α)) :
    allocOpt cond len = some a → a.length = len := by
  intro h
  cases cond with
  | false => simp [allocOpt] at h
  | true =>
    simp [allocOpt] at h
    rw [← h]
    simp

theorem sum_map_set (l : List (Option Nat)) :
    ∀ j x, j < l.length →
      ((l.set j x).map (fun e => Option.getD e 0)).sum + (l.getD j none).getD 0 =
        (l.map (fun e => Option.getD e 0)).sum + x.getD 0 := by
  induction l with
  | nil =>
    intro j x h
    simp at h
  | cons a t ih =>
    intro j x h
    cases j with
    | zero =>
      simp [List.set, List.getD]
      omega
    | succ m =>
      simp only [List.set_cons_succ, List.getD_cons_succ, List.map_cons, List.sum_cons]
      have := ih m x (by simpa using h)
      omega

theorem getD_replicate_none (n j : Nat) :
    (List.replicate n (none : Option Nat)).getD j none = none := by
  rw [List.getD_eq_getElem?_getD, List.getElem?_replicate]
  split <;> rfl

theorem offScanFacesGo_sum (k : Nat) :
    ∀ i arr tot rest arr2 tot2 rest2,
      offScanFacesGo k i arr tot rest = Except.ok (arr2, tot2, rest2) →
      (∀ j, i ≤ j → arr.getD j none = none) →
      i + k ≤ arr.length →
      (arr2.map (fun e => Option.getD e 0)).sum + tot =
          (arr.map (fun e => Option.getD e 0)).sum + tot2 ∧
        arr2.length = arr.length := by
  induction k with
  | zero =>
    intro i arr tot rest arr2 tot2 rest2 h _ _
    unfold offScanFacesGo at h
    obtain ⟨rfl, rfl, rfl⟩ : arr = arr2 ∧ tot = tot2 ∧ rest = rest2 := by
      simpa using h
    exact ⟨rfl, rfl⟩
  | succ m ih =>
    intro i arr tot rest arr2 tot2 rest2 h htail hlen
    unfold offScanFacesGo at h
    cases hr : read_line rest with
    | none =>
      rw [hr] at h
      exact absurd h (by simp)
    | some p =>
      obtain ⟨l, rest1⟩ := p
      rw [hr] at h
      dsimp only at h
      cases hs : sscanfInt l with
      | none =>
        rw [hs] at h
        exact absurd h (by simp)
      | some fs =>
        rw [hs] at h
        dsimp only at h
        by_cases hlt : fs < 3
        · rw [if_pos hlt] at h
          exact absurd h (by simp)
        · rw [if_neg hlt] at h
          have hi : i < arr.length := by omega
          have htail2 : ∀ j, i + 1 ≤ j →
              (arr.set i (some fs.toNat)).getD j none = none := by
            intro j hj
            rw [getD_set_ne _ _ _ _ _ (by omega)]
            exact htail j (by omega)
          have hlen2 : (i + 1) + m ≤ (arr.set i (some fs.toNat)).length := by
            simp only [List.length_set]
            omega
          obtain ⟨hsum, hl⟩ := ih (i + 1) (arr.set i (some fs.toNat)) (tot + fs.toNat)
            rest1 arr2 tot2 rest2 h htail2 hlen2
          have hset := sum_map_set arr i (some fs.toNat) hi
          have hnone : arr.getD i none = none := htail i (by omega)
          rw [hnone] at hset
          constructor
          · simp only [Option.getD_none, Option.getD_some] at hset
            omega
          · rw [hl]
            simp

theorem writeChunk_length (vs : List Nat) :
    ∀ arr off, (writeChunk arr off vs).length = arr.length := by
  induction vs with
  | nil =>
    intro arr off
    rfl
  | cons v rest ih =>
    intro arr off
    unfold writeChunk
    rw [ih]
    simp

theorem offFillFacesGo_length (sizes : List (Option Nat)) (k : Nat) :
    ∀ i indices off rest out,
      offFillFacesGo sizes k i indices off rest = Except.ok out →
      out.length = indices.length := by
  induction k with
  | zero =>
    intro i indices off rest out h
    unfold offFillFacesGo at h
    obtain rfl : indices = out := by simpa using h
    rfl
  | succ m ih =>
    intro i indices off rest out h
    unfold offFillFacesGo at h
    cases hr : read_line rest with
    | none =>
      rw [hr] at h
      exact absurd h (by simp)
    | some p =>
      obtain ⟨l, rest1⟩ := p
      rw [hr] at h
      dsimp only at h
      cases hp : parse_face_indices l ((sizes.getD i none).getD 0) with
      | none =>
        rw [hp] at h
        exact absurd h (by simp)
      | some idxs =>
        rw [hp] at h
        dsimp only at h
        rw [ih _ _ _ _ _ h]
        exact writeChunk_length idxs indices off

theorem offBody_fvi_sum (nV nF : Nat) (rest : List (List Char)) :
    (offBody nV nF rest).err = none →
      optLen (offBody nV nF rest).pFaceVertexIndices =
        optSum (offBody nV nF rest).pFaceSizes := by
  unfold offBody
  dsimp only
  split
  · intro h
    simp [offCleanup] at h
  · rename_i verts restV hv
    split
    · intro h
      simp [offCleanup] at h
    · rename_i sizes tot restF hs
      split
      · intro h
        simp [offCleanup] at h
      · rename_i indices hf
        intro _
        dsimp only
        have h1 := offFillFacesGo_length sizes nF 0 (List.replicate tot none) 0 restV indices hf
        have h2 := offScanFacesGo_sum nF 0 (List.replicate nF none) 0 restV sizes tot restF hs
          (fun j _ => getD_replicate_none nF j) (by simp)
        simp only [List.length_replicate] at h1
        simp [optLen, optSum]
        have h2a := h2.1
        simp [List.map_replicate] at h2a
        omega

theorem offAfterHeader_fvi_sum (rest : List (List Char)) :
    (offAfterHeader rest).err = none →
      optLen (offAfterHeader rest).pFaceVertexIndices =
        optSum (offAfterHeader rest).pFaceSizes := by
  unfold offAfterHeader
  split
  · intro h
    simp [offCleanup] at h
  · split
    · intro h
      simp [offCleanup] at h
    · split
      · intro h
        simp [offCleanup] at h
      · exact offBody_fvi_sum _ _ _

theorem objCountPass_faces (lines : List (List Char)) :
    (objCountPass lines).faceCount = (objFaceLines lines).length ∧
      (objCountPass lines).faceIndexCount =
        ((objFaceLines lines).map count_face_vertices).sum := by
  have h := objCountGo lines ⟨0, 0, 0, 0, 0⟩
  constructor
  · have := h.1
    simpa [objCountPass] using this
  · have := h.2
    simpa [objCountPass] using this

theorem objSizesSum (lines : List (List Char)) :
    optSum (mioReadOBJ lines).pFaceSizes = (objCountPass lines).faceIndexCount := by
  obtain ⟨hc1, hc2⟩ := objCountPass_faces lines
  rw [show (mioReadOBJ lines).pFaceSizes =
      (objFillPass lines (objAllocState (objCountPass lines))).pFaceSizes from rfl]
  by_cases hf : (objCountPass lines).faceCount = 0
  · have ha : (objAllocState (objCountPass lines)).pFaceSizes = none := by
      simp [objAllocState, allocOpt, hf]
    rw [objFillPass_sizes_none lines _ ha]
    have hnil : objFaceLines lines = [] := List.length_eq_zero.mp (by omega)
    rw [hc2, hnil]
    rfl
  · have hpos : 0 < (objCountPass lines).faceCount := Nat.pos_of_ne_zero hf
    have ha : (objAllocState (objCountPass lines)).pFaceSizes =
        some (List.replicate (objCountPass lines).faceCount none) := by
      simp [objAllocState, allocOpt, hpos]
    have hfi0 : (objAllocState (objCountPass lines)).fIdx = 0 := rfl
    obtain ⟨a2, h1, h2, h3, h4⟩ :=
      objFillPass_sizes lines (objAllocState (objCountPass lines))
        (List.replicate (objCountPass lines).faceCount none) ha
        (by rw [hfi0]; simp [hc1])
    rw [hfi0] at h4
    simp only [Nat.zero_add] at h4
    rw [h1]
    have hlen2 : a2.length = (objFaceLines lines).length := by
      rw [h2]
      simp [hc1]
    have ha2 : a2 = (objFaceLines lines).map (fun l => some (count_face_vertices l)) := by
      apply List.ext_getElem
      · simp [hlen2]
      · intro i hi1 hi2
        have hi : i < (objFaceLines lines).length := hlen2 ▸ hi1
        have h4i := h4 i _ (List.getElem?_eq_getElem hi)
        rw [List.getD_eq_getElem?_getD, List.getElem?_eq_getElem hi1] at h4i
        rw [List.getElem_map]
        simpa using h4i
    rw [ha2, hc2]
    simp [optSum, List.map_map, Function.comp_def]

theorem objFviLen (lines : List (List Char)) :
    optLen (mioReadOBJ lines).pFaceVertexIndices = (objCountPass lines).faceIndexCount := by
  have hm := (objFillPass_mapLen lines (objAllocState (objCountPass lines))).1
  rw [show (mioReadOBJ lines).pFaceVertexIndices =
      (objFillPass lines (objAllocState (objCountPass lines))).pFaceVertexIndices from rfl]
  unfold optLen
  rw [hm]
  by_cases hq : 0 < (objCountPass lines).faceIndexCount
  · have ha : (objAllocState (objCountPass lines)).pFaceVertexIndices =
        some (List.replicate (objCountPass lines).faceIndexCount none) := by
      simp [objAllocState, allocOpt, hq]
    rw [ha]
    simp
  · have ha : (objAllocState (objCountPass lines)).pFaceVertexIndices = none := by
      simp [objAllocState, allocOpt, hq]
    rw [ha]
    simp
    omega

theorem objTexLen (lines : List (List Char)) :
    (mioReadOBJ lines).pFaceVertexTexCoordIndices.isSome = true →
      optLen (mioReadOBJ lines).pFaceVertexTexCoordIndices =
        (objCountPass lines).faceIndexCount := by
  intro ht
  have hm := (objFillPass_mapLen lines (objAllocState (objCountPass lines))).2.1
  rw [show (mioReadOBJ lines).pFaceVertexTexCoordIndices =
      (objFillPass lines (objAllocState (objCountPass lines))).pFaceVertexTexCoordIndices
      from rfl] at ht ⊢
  cases halo : (objAllocState (objCountPass lines)).pFaceVertexTexCoordIndices with
  | none =>
    cases hfin : (objFillPass lines
        (objAllocState (objCountPass lines))).pFaceVertexTexCoordIndices with
    | none =>
      rw [hfin] at ht
      simp at ht
    | some b =>
      rw [hfin, halo] at hm
      simp at hm
  | some a =>
    have halo2 : allocOpt (0 < (objCountPass lines).faceIndexCount &&
        0 < (objCountPass lines).texCoordCount)
        (objCountPass lines).faceIndexCount = some a := halo
    have hlen := allocOpt_some_length _ _ a halo2
    rw [halo] at hm
    unfold optLen
    rw [hm]
    simpa using hlen

theorem objNormLen (lines : List (List Char)) :
    (mioReadOBJ lines).pFaceVertexNormalIndices.isSome = true →
      optLen (mioReadOBJ lines).pFaceVertexNormalIndices =
        (objCountPass lines).faceIndexCount := by
  intro ht
  have hm := (objFillPass_mapLen lines (objAllocState (objCountPass lines))).2.2
  rw [show (mioReadOBJ lines).pFaceVertexNormalIndices =
      (objFillPass lines (objAllocState (objCountPass lines))).pFaceVertexNormalIndices
      from rfl] at ht ⊢
  cases halo : (objAllocState (objCountPass lines)).pFaceVertexNormalIndices with
  | none =>
    cases hfin : (objFillPass lines
        (objAllocState (objCountPass lines))).pFaceVertexNormalIndices with
    | none =>
      rw [hfin] at ht
      simp at ht
    | some b =>
      rw [hfin, halo] at hm
      simp at hm
  | some a =>
    have halo2 : allocOpt (0 < (objCountPass lines).faceIndexCount &&
        0 < (objCountPass lines).normalCount)
        (objCountPass lines).faceIndexCount = some a := halo
    have hlen := allocOpt_some_length _ _ a halo2
    rw [halo] at hm
    unfold optLen
    rw [hm]
    simpa using hlen

/-- C4: after every successful read, the face-vertex index array has
exactly `sum faceSizes` entries, and the tex-coord and normal index
arrays, when allocated, have that same length — for the hardened OBJ
reader (which has no fatal error path) and for the OFF reader on its
success path. -/
theorem mio_c4 :
    (∀ lines : List (List Char),
      optLen (mioReadOBJ lines).pFaceVertexIndices = optSum (mioReadOBJ lines).pFaceSizes ∧
      ((mioReadOBJ lines).pFaceVertexTexCoordIndices.isSome = true →
        optLen (mioReadOBJ lines).pFaceVertexTexCoordIndices =
          optSum (mioReadOBJ lines).pFaceSizes) ∧
      ((mioReadOBJ lines).pFaceVertexNormalIndices.isSome = true →
        optLen (mioReadOBJ lines).pFaceVertexNormalIndices =
          optSum (mioReadOBJ lines).pFaceSizes)) ∧
    (∀ lines : List (List Char), (mioReadOFF lines).err = none →
      optLen (mioReadOFF lines).pFaceVertexIndices =
        optSum (mioReadOFF lines).pFaceSizes) := by
  constructor
  · intro lines
    refine ⟨?_, ?_, ?_⟩
    · rw [objFviLen lines, objSizesSum lines]
    · intro ht
      rw [objTexLen lines ht, objSizesSum lines]
    · intro ht
      rw [objNormLen lines ht, objSizesSum lines]
  · intro lines
    unfold mioReadOFF
    split
    · intro h
      simp [offCleanup] at h
    · split
      · exact offAfterHeader_fvi_sum _
      · intro h
        simp [offCleanup] at h

theorem mio_c4_witness :
    optLen (mioReadOBJ c4objLines).pFaceVertexTexCoordIndices =
        optSum (mioReadOBJ c4objLines).pFaceSizes ∧
      optLen (mioReadOBJ c4objLines).pFaceVertexNormalIndices =
        optSum (mioReadOBJ c4objLines).pFaceSizes ∧
      optLen (mioReadOFF tetraLines).pFaceVertexIndices =
        optSum (mioReadOFF tetraLines).pFaceSizes :=
  ⟨(mio_c4.1 c4objLines).2.1 (by decide),
   (mio_c4.1 c4objLines).2.2 (by decide),
   mio_c4.2 tetraLines (by decide)⟩

theorem set_append_start (p t : List (Option Nat)) (x : Option Nat) :
    (p ++ t).set p.length x = p ++ t.set 0 x := by
  rw [List.set_append]
  simp

theorem writeChunk_fill (vs : List Nat) :
    ∀ p suffix : List (Option Nat),
      writeChunk (p ++ (List.replicate vs.length none ++ suffix)) p.length vs =
        p ++ (vs.map some ++ suffix) := by
  induction vs with
  | nil =>
    intro p suffix
    simp [writeChunk]
  | cons v rest ih =>
    intro p suffix
    unfold writeChunk
    have hset : (p ++ (List.replicate (v :: rest).length none ++ suffix)).set p.length
        (some v) = (p ++ [some v]) ++ (List.replicate rest.length none ++ suffix) := by
      rw [set_append_start]
      simp [List.replicate_succ]
    rw [hset]
    have ih2 := ih (p ++ [some v]) suffix
    simp only [List.length_append, List.length_cons, List.length_nil] at ih2
    rw [ih2]
    simp

theorem plyScan_char (faces : List (List Int)) :
    ∀ (p suffix : List (Option Nat)) (tot : Nat),
      plyScanFacesGo faces p.length (p ++ (List.replicate faces.length none ++ suffix)) tot =
        (p ++ ((faces.map (fun f => some f.length)) ++ suffix),
          tot + (faces.map List.length).sum) := by
  induction faces with
  | nil =>
    intro p suffix tot
    simp [plyScanFacesGo]
  | cons f rest ih =>
    intro p suffix tot
    unfold plyScanFacesGo
    have hset : (p ++ (List.replicate (f :: rest).length none ++ suffix)).set p.length
        (some f.length) =
        (p ++ [some f.length]) ++ (List.replicate rest.length none ++ suffix) := by
      rw [set_append_start]
      simp [List.replicate_succ]
    rw [hset]
    have ih2 := ih (p ++ [some f.length]) suffix (tot + f.length)
    simp only [List.length_append, List.length_cons, List.length_nil] at ih2
    rw [ih2]
    simp
    omega

theorem plyFill_char (faces : List (List Int)) :
    ∀ p suffix : List (Option Nat),
      plyFillFacesGo faces p.length
          (p ++ (List.replicate (faces.map List.length).sum none ++ suffix)) =
        p ++ ((faces.flatten.map (fun v => some (uintOfInt v))) ++ suffix) := by
  induction faces with
  | nil =>
    intro p suffix
    simp [plyFillFacesGo]
  | cons f rest ih =>
    intro p suffix
    unfold plyFillFacesGo
    have hsum : ((f :: rest).map List.length).sum =
        (f.map uintOfInt).length + (rest.map List.length).sum := by
      simp
    have harr : p ++ (List.replicate ((f :: rest).map List.length).sum none ++ suffix) =
        p ++ (List.replicate (f.map uintOfInt).length none ++
          (List.replicate ((rest.map List.length).sum) none ++ suffix)) := by
      rw [hsum, List.replicate_add, List.append_assoc]
    rw [harr,
      writeChunk_fill (f.map uintOfInt) p
        (List.replicate ((rest.map List.length).sum) none ++ suffix)]
    have ih2 := ih (p ++ (f.map uintOfInt).map some) suffix
    rw [List.append_assoc] at ih2
    have hl : (p ++ (f.map uintOfInt).map some).length = p.length + f.length := by
      simp
    rw [hl] at ih2
    rw [ih2]
    simp [List.map_map, Function.comp_def]

/-- C8 (amended): ply.c `mioReadPLY` stores every face vertex index
verbatim (cast to `unsigned int`), with no validation or clamping against
the vertex count; the face sizes and count are recorded exactly. -/
theorem mio_c8 (faces : List (List Int)) :
    (mioReadPLYFaces faces).pFaceSizes = some (faces.map (fun f => some f.length)) ∧
      (mioReadPLYFaces faces).pFaceVertexIndices =
        some (faces.flatten.map (fun v => some (uintOfInt v))) ∧
      (mioReadPLYFaces faces).numFaces = faces.length := by
  have hs := plyScan_char faces [] [] 0
  simp only [List.nil_append, List.append_nil, List.length_nil, Nat.zero_add] at hs
  have hf := plyFill_char faces [] []
  simp only [List.nil_append, List.append_nil, List.length_nil] at hf
  unfold mioReadPLYFaces
  dsimp only
  rw [hs]
  dsimp only
  rw [hf]
  exact ⟨rfl, rfl, rfl⟩

/-- C8 (counterexample to the claimed clamping): for a mesh with 3
vertices, the face [0, 5, 2] is stored with the out-of-range index 5
intact — nothing is clamped into [0, 3). -/
theorem mio_c8_counterexample :
    (mioReadPLYFaces [[0, 5, 2]]).pFaceVertexIndices =
        some [some 0, some 5, some 2] ∧ ¬(5 < 3) := by
  decide

/-- C2 (OFF half): whenever off.c mioReadOFF reports any fatal error, it
returns with all three output arrays null and both counts zero. -/
theorem mio_c2 (lines : List (List Char))
    (h : (mioReadOFF lines).err.isSome = true) :
    (mioReadOFF lines).pVertices = none ∧
      (mioReadOFF lines).pFaceVertexIndices = none ∧
      (mioReadOFF lines).pFaceSizes = none ∧
      (mioReadOFF lines).numVertices = 0 ∧ (mioReadOFF lines).numFaces = 0 := by
  rcases mioReadOFF_err_shape lines with hn | ⟨e, he⟩
  · rw [hn] at h
    simp at h
  · rw [he]
    simp [offCleanup]

theorem mio_c2_witness :
    ((mioReadOFF c2badLines).err.isSome = true) ∧
      (mioReadOFF c2badLines).pVertices = none ∧
      (mioReadOFF c2badLines).pFaceVertexIndices = none ∧
      (mioReadOFF c2badLines).pFaceSizes = none ∧
      (mioReadOFF c2badLines).numVertices = 0 ∧
      (mioReadOFF c2badLines).numFaces = 0 :=
  ⟨by decide, mio_c2 c2badLines (by decide)⟩

/-- C9: mioReadOFF fails with the bad-header error exactly when the first
non-blank, non-comment line does not contain the characters OFF
(`strstr` substring semantics); when it does, parsing proceeds to the
counts line. -/
theorem mio_c9 (lines : List (List Char)) (l : List Char)
    (rest : List (List Char)) (h : read_line lines = some (l, rest)) :
    (((mioReadOFF lines).err = some OffErr.badHeader) ↔ containsOFF l = false)
    ∧ (containsOFF l = true → mioReadOFF lines = offAfterHeader rest) := by
  have hm : mioReadOFF lines =
      (if containsOFF l then offAfterHeader rest else offCleanup OffErr.badHeader) := by
    unfold mioReadOFF
    rw [h]
  constructor
  · by_cases hc : containsOFF l = true
    · rw [hm]
      simp only [hc, if_true]
      constructor
      · intro habs
        rcases offAfterHeader_err_shape rest with hn | ⟨e, he, hne⟩
        · rw [hn] at habs
          exact absurd habs (by simp)
        · rw [he] at habs
          simp [offCleanup] at habs
          exact absurd habs hne
      · intro hf
        exact absurd hf (by simp)
    · have hc2 : containsOFF l = false := by
        cases hcl : containsOFF l
        · rfl
        · exact absurd hcl hc
      rw [hm]
      simp [hc2, offCleanup]
  · intro hc
    rw [hm, hc]
    simp

theorem mio_c9_witness :
    (((mioReadOFF tetraLines).err = some OffErr.badHeader) ↔
      containsOFF (("OFF").toList) = false)
    ∧ (containsOFF (("OFF").toList) = true →
        mioReadOFF tetraLines = offAfterHeader (tetraLines.drop 1)) :=
  mio_c9 tetraLines (("OFF").toList) (tetraLines.drop 1) (by decide)

/-- C10: the hardened mioReadOFF rejects any file whose declared vertex
count or face count is zero with the invalid-counts error (nulled arrays,
zero counts); in particular the point cloud mioWriteOFF emits for pc0 can
never be read back. -/
theorem mio_c10 :
    (∀ lines l0 rest0 l1 rest1 nV nF,
      read_line lines = some (l0, rest0) → containsOFF l0 = true →
      read_line rest0 = some (l1, rest1) → off_sscanf_counts l1 = some (nV, nF) →
      nV = 0 ∨ nF = 0 →
      mioReadOFF lines = offCleanup OffErr.invalidCounts)
    ∧ mioReadOFF (mioWriteOFF pc0) = offCleanup OffErr.invalidCounts := by
  constructor
  · intro lines l0 rest0 l1 rest1 nV nF h0 hc h1 hcnt hz
    unfold mioReadOFF
    rw [h0]
    simp only [hc, if_true]
    unfold offAfterHeader
    rw [h1]
    dsimp only
    rw [hcnt]
    have hb : (nV = 0 || nF = 0) = true := by
      rcases hz with hz | hz <;> simp [hz]
    simp [hb]
  · decide

theorem mio_c10_witness :
    mioReadOFF ((["OFF", "3 0 0", "0 0 0", "1 0 0", "0 0 1"]).map chars) =
      offCleanup OffErr.invalidCounts :=
  mio_c10.1 ((["OFF", "3 0 0", "0 0 0", "1 0 0", "0 0 1"]).map chars)
    (("OFF").toList) ((["3 0 0", "0 0 0", "1 0 0", "0 0 1"]).map chars)
    (("3 0 0").toList) ((["0 0 0", "1 0 0", "0 0 1"]).map chars)
    3 0 (by decide) (by decide) (by decide) (by decide) (Or.inr rfl)

/-- C1: on the triangle mesh M0 the hardened obj.c write/read pair is the
identity on counts, face sizes, indices and vertex component text, but
the legacy mio.c writer breaks the round trip: its output reads back with
4 vertices and 0 faces (the face line is emitted with a "v " prefix). -/
theorem mio_c1 :
    (mioReadOBJ (mioWriteOBJ M0)).numVertices = M0.numVertices ∧
      (mioReadOBJ (mioWriteOBJ M0)).numFaces = M0.numFaces ∧
      (mioReadOBJ (mioWriteOBJ M0)).pVertices = some (M0.pVertices.map some) ∧
      (mioReadOBJ (mioWriteOBJ M0)).pFaceSizes = some (M0.pFaceSizes.map some) ∧
      (mioReadOBJ (mioWriteOBJ M0)).pFaceVertexIndices =
        some (M0.pFaceVertexIndices.map (fun i => some i)) ∧
      (mioReadOBJ (legacyWriteOBJ M0)).numVertices = 4 ∧
      (mioReadOBJ (legacyWriteOBJ M0)).numFaces = 0 := by
  decide

/-- C3: the face line "f 1 2 3" parses to 0-based indices [0, 1, 2], and
the hardened writer re-biases [0, 1, 2] to the line "f 1 2 3"; the legacy
mio.c writer instead emits the face line with a "v " prefix. -/
theorem mio_c3 :
    (mioReadOBJ ((["v 0 0 0", "v 0 0 0", "v 0 0 0", "f 1 2 3"]).map chars)).pFaceVertexIndices
        = some [some 0, some 1, some 2] ∧
      mioWriteOBJ M0 = (["v 0 0 0", "v 1 0 0", "v 0.5 1 0", "f 1 2 3"]).map chars ∧
      legacyWriteOBJ M0 = (["v 0 0 0", "v 1 0 0", "v 0.5 1 0", "v 1 2 3"]).map chars := by
  decide

/-- C5: on a zero-byte OBJ file the hardened reader returns all-null
arrays and zero counts, but the legacy mio.c reader aborts (its
`nFaceIndices == 0` check calls abort even for an empty file), so the
claim fails for that implementation of the entry point. -/
theorem mio_c5 :
    (mioReadOBJ []).pVertices = none ∧ (mioReadOBJ []).pNormals = none ∧
      (mioReadOBJ []).pTexCoords = none ∧ (mioReadOBJ []).pFaceSizes = none ∧
      (mioReadOBJ []).pFaceVertexIndices = none ∧
      (mioReadOBJ []).pFaceVertexTexCoordIndices = none ∧
      (mioReadOBJ []).pFaceVertexNormalIndices = none ∧
      (mioReadOBJ []).numVertices = 0 ∧ (mioReadOBJ []).numNormals = 0 ∧
      (mioReadOBJ []).numTexcoords = 0 ∧ (mioReadOBJ []).numFaces = 0 ∧
      legacyReadOBJ [] = Except.error LegacyAbort.noFaceIndices :=
  ⟨by decide, by decide, by decide, by decide, by decide, by decide, by decide,
    by decide, by decide, by decide, by decide, rfl⟩

/-- C7: the hardened reader parses the "v//vn" token "1//2" to vertex 0,
absent tex coord (-1) and normal 1, and stores no tex-coord index for
that slot; the legacy mio.c reader, whose strtok collapses "//" and whose
sscanf re-parses the whole compound token, instead records tex-coord
index 0 and no normal index for the same file. -/
theorem mio_c7 :
    parse_face_vertex (("1//2").toList) = some (0, -1, 1) ∧
      (mioReadOBJ c7lines).pFaceVertexNormalIndices = some [some 1] ∧
      (mioReadOBJ c7lines).pFaceVertexTexCoordIndices = some [none] ∧
      Except.map (fun r => (r.pFaceVertexTexCoordIndices, r.pFaceVertexNormalIndices))
          (legacyReadOBJ c7lines) = Except.ok (some [some 0], some [none]) :=
  ⟨by decide, by decide, by decide, rfl⟩

/-- C2 (counterexample for the STL half): a binary STL whose header
declares one triangle but whose body is truncated leaves partial state on
return — the vertex buffer is allocated and numVertices is already 3 when
the failed normal read is detected. -/
theorem mio_c2_counterexample :
    is_binary_stl stlTruncFile = true ∧
      (read_binary_stl stlTruncFile stlInit).err = some StlErr.normalRead ∧
      (read_binary_stl stlTruncFile stlInit).numVertices = 3 ∧
      (read_binary_stl stlTruncFile stlInit).pVertices.isSome = true := by
  decide
